import Mathlib

/-! Formal model of the rocketmq-client-rs wire framing codec (src/frame.rs),
the incremental stream parser (src/connection.rs), the route cache
(src/route.rs) and the process-wide opaque-identifier generator, together
with theorems settling the specification claims.

Modelling conventions: byte buffers are lists of natural numbers (each entry
is below 256 in data that actually came off a wire); Rust i32 values are
integers, with explicit two's-complement wrapping wherever the source casts
or can overflow; Rust String values are their UTF-8 byte sequences; fallible
code returns Except, and code that can panic (Buf::copy_to_bytes asked for
more bytes than remain) returns a dedicated PanicOr wrapper. The JSON header
codec of serde_json is modelled concretely: the serializer mirrors the
derived Serialize implementation of Frame (declaration-order fields,
camelCase keys, skipped-when-empty remark and extFields, escaped strings),
and the deserializer mirrors the derived Deserialize implementation driven
by serde_json (whitespace tolerant, key order insensitive, unknown fields
ignored, duplicate fields rejected, required fields checked). -/

namespace RocketMQ

/-- Rust String values are modelled by their UTF-8 byte sequences. -/
abbrev Str := List Nat

instance {ε α : Type} [DecidableEq ε] [DecidableEq α] : DecidableEq (Except ε α) := fun a b =>
  match a, b with
  | .error x, .error y =>
    if h : x = y then isTrue (by rw [h]) else isFalse (by simp [h])
  | .ok x, .ok y =>
    if h : x = y then isTrue (by rw [h]) else isFalse (by simp [h])
  | .error _, .ok _ => isFalse (by simp)
  | .ok _, .error _ => isFalse (by simp)

/-- Lower bound of the i32 range. -/
def i32Min : Int := -(2 ^ 31)

/-- Upper bound of the i32 range. -/
def i32Max : Int := 2 ^ 31 - 1

/-- The integer fits in an i32. -/
abbrev IsI32 (i : Int) : Prop := i32Min ≤ i ∧ i ≤ i32Max

/-- Two's-complement wrap of an integer into the i32 range (Rust overflow
semantics for i32 arithmetic and for `as i32` casts). -/
def wrap32 (i : Int) : Int := (i + 2 ^ 31) % 2 ^ 32 - 2 ^ 31

/-- Rust `i32 as usize` on a 64-bit target: sign extension reinterpreted as
an unsigned 64-bit value, so a negative length becomes huge. -/
def usizeOfI32 (i : Int) : Nat := (i % 2 ^ 64).toNat

/-- Reads a big-endian i32 from the first four entries of a byte list, as
bytes::Buf::get_i32 does. -/
def beToI32 (l : List Nat) : Int :=
  let n : Nat := (l.getD 0 0 % 256) * 2 ^ 24 + (l.getD 1 0 % 256) * 2 ^ 16
    + (l.getD 2 0 % 256) * 2 ^ 8 + l.getD 3 0 % 256
  if n < 2 ^ 31 then (n : Int) else (n : Int) - 2 ^ 32

/-- Writes an integer as a big-endian four-byte i32, as BufMut::put_i32 does
after the Rust-side `as i32` wrap. -/
def i32be (i : Int) : List Nat :=
  [(i % 2 ^ 32).toNat / 2 ^ 24 % 256, (i % 2 ^ 32).toNat / 2 ^ 16 % 256,
   (i % 2 ^ 32).toNat / 2 ^ 8 % 256, (i % 2 ^ 32).toNat % 256]

/-- The Language enum of src/frame.rs. -/
inductive Language
  | JAVA
  | CPP
  | RUST
deriving DecidableEq

/-- serde serializes the unit variants of Language as their names. -/
def Language.nameBytes : Language → Str
  | .JAVA => [74, 65, 86, 65]
  | .CPP => [67, 80, 80]
  | .RUST => [82, 85, 83, 84]

/-- The ClientError enum of src/error.rs. -/
inductive ClientError
  | BadAddress (addr : Str)
  | ConnectTimeout
  | ConnectionReset
  | InvalidFrame (msg : String)
  | Unknown
deriving DecidableEq

/-- The Frame struct of src/frame.rs. The Rust field named after the request
identifier is a Lean keyword, so it is called opaqueId here. The extension
fields are kept as an association list recording one iteration order of the
Rust HashMap; HashMap equality is order-insensitive, so list equality is
stronger than the Rust PartialEq. -/
structure Frame where
  code : Int
  language : Language
  version : Int
  opaqueId : Int
  flag : Int
  remark : Str
  ext_fields : List (Str × Str)
  body : List Nat
deriving DecidableEq

/-- The Default instance of Frame: zero integers, RUST language, empty
remark, extension fields and body. -/
def Frame.defaultFrame : Frame :=
  { code := 0, language := .RUST, version := 0, opaqueId := 0, flag := 0,
    remark := [], ext_fields := [], body := [] }

/-- Frame::new assigns a fresh opaque identifier and defaults elsewhere. -/
def Frame.new (opq : Int) : Frame := { Frame.defaultFrame with opaqueId := opq }

/-- State of the process-wide AtomicI32 SEQUENCE after n fetch_add(1, Relaxed)
calls; fetch_add wraps on overflow. -/
def opaqueStateAfter : Nat → Int
  | 0 => 0
  | n + 1 => wrap32 (opaqueStateAfter n + 1)

/-- The opaque identifier returned by the call with index n (fetch_add
returns the previous value, so call 0 returns 0). -/
def opaqueValueAt (n : Nat) : Int := opaqueStateAfter n

/-! JSON serialization of the Frame header, mirroring serde_json::to_vec on
the derived Serialize implementation. -/

/-- One hexadecimal digit character, lowercase, as serde_json emits. -/
def hexDigitChar (n : Nat) : Nat := if n < 10 then 48 + n else 87 + n

/-- serde_json escaping of one string byte: quote and backslash are escaped,
control bytes use the short escapes or a four-digit unicode escape, and
every other byte is emitted verbatim. -/
def escByte (c : Nat) : List Nat :=
  if c = 34 then [92, 34]
  else if c = 92 then [92, 92]
  else if c = 8 then [92, 98]
  else if c = 9 then [92, 116]
  else if c = 10 then [92, 110]
  else if c = 12 then [92, 102]
  else if c = 13 then [92, 114]
  else if c < 32 then [92, 117, 48, 48, hexDigitChar (c / 16), hexDigitChar (c % 16)]
  else [c]

/-- Escape every byte of a string. -/
def escBytes : Str → List Nat
  | [] => []
  | c :: rest => escByte c ++ escBytes rest

/-- A JSON string literal: quote, escaped content, quote. -/
def serStr (s : Str) : List Nat := 34 :: (escBytes s ++ [34])

/-- Decimal digits of a natural number, most significant first; the fuel
argument (any bound above the value) keeps the recursion structural so that
the definition evaluates inside the kernel. -/
def natCharsAux : Nat → Nat → List Nat
  | 0, _ => []
  | fuel + 1, n => if n < 10 then [n + 48] else natCharsAux fuel (n / 10) ++ [n % 10 + 48]

/-- Decimal digits of a natural number, most significant first. -/
def natChars (n : Nat) : List Nat := natCharsAux (n + 1) n

/-- A JSON integer literal: optional minus sign, then decimal digits. -/
def serInt (i : Int) : List Nat :=
  if i < 0 then 45 :: natChars (-i).toNat else natChars i.toNat

/-- Entries of a JSON string-to-string object after the first, each preceded
by a comma. -/
def serEntriesRest : List (Str × Str) → List Nat
  | [] => []
  | (k, v) :: rest => [44] ++ serStr k ++ [58] ++ serStr v ++ serEntriesRest rest

/-- A JSON string-to-string object, in the iteration order of the list. -/
def serMap : List (Str × Str) → List Nat
  | [] => [123, 125]
  | (k, v) :: rest => [123] ++ serStr k ++ [58] ++ serStr v ++ serEntriesRest rest ++ [125]

/-- Key bytes of the code field. -/
def keyCode : Str := [99, 111, 100, 101]

/-- Key bytes of the language field. -/
def keyLanguage : Str := [108, 97, 110, 103, 117, 97, 103, 101]

/-- Key bytes of the version field. -/
def keyVersion : Str := [118, 101, 114, 115, 105, 111, 110]

/-- Key bytes of the request-identifier field. -/
def keyOpq : Str := [111, 112, 97, 113, 117, 101]

/-- Key bytes of the flag field. -/
def keyFlag : Str := [102, 108, 97, 103]

/-- Key bytes of the remark field. -/
def keyRemark : Str := [114, 101, 109, 97, 114, 107]

/-- Key bytes of the extFields field (camelCase rename of ext_fields). -/
def keyExtFields : Str := [101, 120, 116, 70, 105, 101, 108, 100, 115]

/-- serde_json::to_vec of a Frame: fields in declaration order with camelCase
keys; remark and extFields are skipped when empty; body is marked skip and
never serialized. -/
def serFrameHeader (f : Frame) : List Nat :=
  [123] ++ serStr keyCode ++ [58] ++ serInt f.code
    ++ [44] ++ serStr keyLanguage ++ [58] ++ serStr f.language.nameBytes
    ++ [44] ++ serStr keyVersion ++ [58] ++ serInt f.version
    ++ [44] ++ serStr keyOpq ++ [58] ++ serInt f.opaqueId
    ++ [44] ++ serStr keyFlag ++ [58] ++ serInt f.flag
    ++ (if f.remark = [] then [] else [44] ++ serStr keyRemark ++ [58] ++ serStr f.remark)
    ++ (if f.ext_fields = [] then []
        else [44] ++ serStr keyExtFields ++ [58] ++ serMap f.ext_fields)
    ++ [125]

/-! JSON deserialization of the Frame header, mirroring
serde_json::from_reader on the derived Deserialize implementation. -/

/-- JSON insignificant whitespace bytes. -/
def isWs (c : Nat) : Bool := c = 32 || c = 9 || c = 10 || c = 13

/-- Drop leading JSON whitespace. -/
def skipWs : List Nat → List Nat
  | [] => []
  | c :: rest => if isWs c then skipWs rest else c :: rest

/-- Value of one hexadecimal digit character, either case. -/
def hexVal (c : Nat) : Option Nat :=
  if 48 ≤ c ∧ c ≤ 57 then some (c - 48)
  else if 97 ≤ c ∧ c ≤ 102 then some (c - 87)
  else if 65 ≤ c ∧ c ≤ 70 then some (c - 55)
  else none

/-- UTF-8 encoding of a scalar value below 0x10000; surrogate halves are
rejected (serde_json pairs them, which this model does not need). -/
def utf8Encode (v : Nat) : Option (List Nat) :=
  if v < 128 then some [v]
  else if v < 2048 then some [192 + v / 64, 128 + v % 64]
  else if 55296 ≤ v ∧ v < 57344 then none
  else if v < 65536 then some [224 + v / 4096, 128 + v / 64 % 64, 128 + v % 64]
  else none

/-- Content of a JSON string after the opening quote: raw bytes until the
closing quote, with backslash escapes decoded and raw control bytes
rejected, as serde_json does. -/
def strBody : List Nat → Option (Str × List Nat)
  | [] => none
  | c :: rest =>
    if c = 34 then some ([], rest)
    else if c = 92 then
      match rest with
      | [] => none
      | e :: rest2 =>
        if e = 34 then (strBody rest2).map fun p => (34 :: p.1, p.2)
        else if e = 92 then (strBody rest2).map fun p => (92 :: p.1, p.2)
        else if e = 47 then (strBody rest2).map fun p => (47 :: p.1, p.2)
        else if e = 98 then (strBody rest2).map fun p => (8 :: p.1, p.2)
        else if e = 116 then (strBody rest2).map fun p => (9 :: p.1, p.2)
        else if e = 110 then (strBody rest2).map fun p => (10 :: p.1, p.2)
        else if e = 102 then (strBody rest2).map fun p => (12 :: p.1, p.2)
        else if e = 114 then (strBody rest2).map fun p => (13 :: p.1, p.2)
        else if e = 117 then
          match rest2 with
          | h1 :: h2 :: h3 :: h4 :: rest3 =>
            match hexVal h1, hexVal h2, hexVal h3, hexVal h4 with
            | some a, some b, some c2, some d =>
              match utf8Encode (((a * 16 + b) * 16 + c2) * 16 + d) with
              | some bs => (strBody rest3).map fun p => (bs ++ p.1, p.2)
              | none => none
            | _, _, _, _ => none
          | _ => none
        else none
    else if c < 32 then none
    else (strBody rest).map fun p => (c :: p.1, p.2)

/-- A JSON string literal: opening quote then its content. -/
def parseStr : List Nat → Option (Str × List Nat)
  | [] => none
  | c :: rest => if c = 34 then strBody rest else none

/-- Decimal digit character test. -/
def isDigit (c : Nat) : Bool := 48 ≤ c && c ≤ 57

/-- Whether a byte list starts with a decimal digit character. -/
def headIsDigit : List Nat → Bool
  | [] => false
  | c :: _ => isDigit c

/-- Accumulate decimal digit characters into a value, stopping at the first
non-digit. -/
def digitsAcc (acc : Nat) : List Nat → Nat × List Nat
  | [] => (acc, [])
  | c :: rest =>
    if isDigit c then digitsAcc (acc * 10 + (c - 48)) rest else (acc, c :: rest)

/-- A JSON natural number literal: a lone zero, or a nonzero leading digit
followed by more digits (JSON forbids redundant leading zeros). -/
def parseNat : List Nat → Option (Nat × List Nat)
  | [] => none
  | c :: rest =>
    if c = 48 then some (0, rest)
    else if isDigit c then some (digitsAcc (c - 48) rest)
    else none

/-- A JSON integer literal: optional minus sign then a natural literal. -/
def parseIntTok : List Nat → Option (Int × List Nat)
  | [] => none
  | c :: rest =>
    if c = 45 then (parseNat rest).map fun p => (-(p.1 : Int), p.2)
    else (parseNat (c :: rest)).map fun p => ((p.1 : Int), p.2)

/-- An i32 value: serde rejects numbers outside the i32 range. -/
def parseI32 (l : List Nat) : Option (Int × List Nat) :=
  match parseIntTok (skipWs l) with
  | some (i, r) => if IsI32 i then some (i, r) else none
  | none => none

/-- A Language value: one of the three variant-name strings. -/
def parseLanguage (l : List Nat) : Option (Language × List Nat) :=
  match parseStr (skipWs l) with
  | some (s, r) =>
    if s = Language.nameBytes .JAVA then some (.JAVA, r)
    else if s = Language.nameBytes .CPP then some (.CPP, r)
    else if s = Language.nameBytes .RUST then some (.RUST, r)
    else none
  | none => none

/-- One key-value entry of a string-to-string object. -/
def parseMapEntry (l : List Nat) : Option ((Str × Str) × List Nat) :=
  match parseStr (skipWs l) with
  | none => none
  | some (k, r1) =>
    match skipWs r1 with
    | [] => none
    | c :: r2 =>
      if c = 58 then
        match parseStr (skipWs r2) with
        | none => none
        | some (v, r3) => some ((k, v), r3)
      else none

/-- Entries of a string-to-string object after the first: a comma and an
entry, repeatedly, until the closing brace. -/
def parseMapGo : Nat → List (Str × Str) → List Nat → Option (List (Str × Str) × List Nat)
  | 0, _, _ => none
  | fuel + 1, acc, l =>
    match skipWs l with
    | [] => none
    | c :: r =>
      if c = 125 then some (acc, r)
      else if c = 44 then
        match parseMapEntry r with
        | none => none
        | some (kv, r2) => parseMapGo fuel (acc ++ [kv]) r2
      else none

/-- A string-to-string JSON object, for the extFields value. -/
def parseStrMap (l : List Nat) : Option (List (Str × Str) × List Nat) :=
  match skipWs l with
  | [] => none
  | c :: r =>
    if c = 123 then
      match skipWs r with
      | [] => none
      | c2 :: r2 =>
        if c2 = 125 then some ([], r2)
        else
          match parseMapEntry r with
          | none => none
          | some (kv, r3) => parseMapGo (r3.length + 1) [kv] r3
    else none

/-- Character class continuing a JSON number token. -/
def numChar (c : Nat) : Bool :=
  isDigit c || c = 46 || c = 101 || c = 69 || c = 43 || c = 45

/-- Consume the remaining characters of a number token. -/
def skipNumTail : List Nat → List Nat
  | [] => []
  | c :: r => if numChar c then skipNumTail r else c :: r

mutual

/-- Skip one arbitrary JSON value, as serde does for unknown fields. -/
def skipJsonValue : Nat → List Nat → Option (List Nat)
  | 0, _ => none
  | fuel + 1, l =>
    match skipWs l with
    | [] => none
    | c :: r =>
      if c = 34 then (strBody r).map Prod.snd
      else if c = 116 then
        match r with
        | 114 :: 117 :: 101 :: r2 => some r2
        | _ => none
      else if c = 102 then
        match r with
        | 97 :: 108 :: 115 :: 101 :: r2 => some r2
        | _ => none
      else if c = 110 then
        match r with
        | 117 :: 108 :: 108 :: r2 => some r2
        | _ => none
      else if c = 45 || isDigit c then some (skipNumTail r)
      else if c = 123 then skipJsonObj fuel r
      else if c = 91 then skipJsonArr fuel r
      else none

/-- Skip the members of a JSON object after its opening brace. -/
def skipJsonObj : Nat → List Nat → Option (List Nat)
  | 0, _ => none
  | fuel + 1, l =>
    match skipWs l with
    | [] => none
    | c :: r =>
      if c = 125 then some r
      else
        match parseStr (skipWs (c :: r)) with
        | none => none
        | some (_, r1) =>
          match skipWs r1 with
          | [] => none
          | c2 :: r2 =>
            if c2 = 58 then
              match skipJsonValue fuel r2 with
              | none => none
              | some r3 => skipJsonObjAfter fuel r3
            else none

/-- Skip object members after one member: comma then member, or close. -/
def skipJsonObjAfter : Nat → List Nat → Option (List Nat)
  | 0, _ => none
  | fuel + 1, l =>
    match skipWs l with
    | [] => none
    | c :: r =>
      if c = 125 then some r
      else if c = 44 then
        match parseStr (skipWs r) with
        | none => none
        | some (_, r1) =>
          match skipWs r1 with
          | [] => none
          | c2 :: r2 =>
            if c2 = 58 then
              match skipJsonValue fuel r2 with
              | none => none
              | some r3 => skipJsonObjAfter fuel r3
            else none
      else none

/-- Skip the elements of a JSON array after its opening bracket. -/
def skipJsonArr : Nat → List Nat → Option (List Nat)
  | 0, _ => none
  | fuel + 1, l =>
    match skipWs l with
    | [] => none
    | c :: r =>
      if c = 93 then some r
      else
        match skipJsonValue fuel (c :: r) with
        | none => none
        | some r1 => skipJsonArrAfter fuel r1

/-- Skip array elements after one element: comma then element, or close. -/
def skipJsonArrAfter : Nat → List Nat → Option (List Nat)
  | 0, _ => none
  | fuel + 1, l =>
    match skipWs l with
    | [] => none
    | c :: r =>
      if c = 93 then some r
      else if c = 44 then
        match skipJsonValue fuel r with
        | none => none
        | some r1 => skipJsonArrAfter fuel r1
      else none

end

/-- Partial record of Frame header fields seen so far while deserializing;
serde rejects duplicate fields and checks required ones at the end. -/
structure FrameAcc where
  code : Option Int := none
  language : Option Language := none
  version : Option Int := none
  opaqueId : Option Int := none
  flag : Option Int := none
  remark : Option Str := none
  ext_fields : Option (List (Str × Str)) := none
deriving DecidableEq

/-- The empty field record. -/
def FrameAcc.init : FrameAcc := {}

/-- Parse the value of one header field, dispatching on the key; unknown
keys have their value skipped, known keys reject duplicates. -/
def parseFieldValue (fuel : Nat) (acc : FrameAcc) (k : Str) (l : List Nat) :
    Option (FrameAcc × List Nat) :=
  if k = keyCode then
    match acc.code, parseI32 l with
    | none, some (i, r) => some ({ acc with code := some i }, r)
    | _, _ => none
  else if k = keyLanguage then
    match acc.language, parseLanguage l with
    | none, some (lang, r) => some ({ acc with language := some lang }, r)
    | _, _ => none
  else if k = keyVersion then
    match acc.version, parseI32 l with
    | none, some (i, r) => some ({ acc with version := some i }, r)
    | _, _ => none
  else if k = keyOpq then
    match acc.opaqueId, parseI32 l with
    | none, some (i, r) => some ({ acc with opaqueId := some i }, r)
    | _, _ => none
  else if k = keyFlag then
    match acc.flag, parseI32 l with
    | none, some (i, r) => some ({ acc with flag := some i }, r)
    | _, _ => none
  else if k = keyRemark then
    match acc.remark, parseStr (skipWs l) with
    | none, some (s, r) => some ({ acc with remark := some s }, r)
    | _, _ => none
  else if k = keyExtFields then
    match acc.ext_fields, parseStrMap l with
    | none, some (m, r) => some ({ acc with ext_fields := some m }, r)
    | _, _ => none
  else
    match skipJsonValue fuel l with
    | some r => some (acc, r)
    | none => none

/-- One header object entry: key string, colon, field value. -/
def parseFieldEntry (fuel : Nat) (acc : FrameAcc) (l : List Nat) :
    Option (FrameAcc × List Nat) :=
  match parseStr (skipWs l) with
  | none => none
  | some (k, r1) =>
    match skipWs r1 with
    | [] => none
    | c :: r2 => if c = 58 then parseFieldValue fuel acc k r2 else none

/-- Header object entries after the first: comma then entry, repeatedly,
until the closing brace. -/
def parseFieldsGo : Nat → FrameAcc → List Nat → Option (FrameAcc × List Nat)
  | 0, _, _ => none
  | fuel + 1, acc, l =>
    match skipWs l with
    | [] => none
    | c :: r =>
      if c = 125 then some (acc, r)
      else if c = 44 then
        match parseFieldEntry fuel acc r with
        | none => none
        | some (acc2, r2) => parseFieldsGo fuel acc2 r2
      else none

/-- Finish deserializing: the five plain fields are required, remark and
extFields default to empty, the skipped body defaults to empty bytes. -/
def finishFrame (acc : FrameAcc) : Option Frame :=
  match acc.code, acc.language, acc.version, acc.opaqueId, acc.flag with
  | some c, some lang, some v, some o, some fl =>
    some { code := c, language := lang, version := v, opaqueId := o, flag := fl,
           remark := acc.remark.getD [], ext_fields := acc.ext_fields.getD [],
           body := [] }
  | _, _, _, _, _ => none

/-- serde_json::from_reader for the Frame header: one JSON object covering
the whole input (trailing whitespace allowed, trailing data rejected). -/
def deserFrameHeader (l : List Nat) : Option Frame :=
  match skipWs l with
  | [] => none
  | c :: r =>
    if c = 123 then
      let step : Option (FrameAcc × List Nat) :=
        match skipWs r with
        | [] => none
        | c2 :: r2 =>
          if c2 = 125 then some (FrameAcc.init, r2)
          else
            match parseFieldEntry (l.length + 1) FrameAcc.init r with
            | none => none
            | some (acc1, r1) => parseFieldsGo (l.length + 1) acc1 r1
      match step with
      | none => none
      | some (acc, rest) => if skipWs rest = [] then finishFrame acc else none
    else none

/-! The cursor-level frame operations of src/frame.rs. -/

/-- A cursor over a byte buffer (std::io::Cursor of a byte slice). -/
structure Cursor where
  data : List Nat
  pos : Nat
deriving DecidableEq

/-- Bytes remaining after the cursor position (Buf::remaining). -/
def Cursor.remaining (c : Cursor) : Nat := c.data.length - c.pos

/-- The bytes from the cursor position onward. -/
def Cursor.rest (c : Cursor) : List Nat := c.data.drop c.pos

/-- Advance the cursor; the sources only call it within bounds. -/
def Cursor.advance (c : Cursor) (n : Nat) : Cursor := ⟨c.data, c.pos + n⟩

/-- The frame module error: not enough data, or an invalid encoding. -/
inductive Frame.Error
  | Incomplete
  | Other (e : ClientError)
deriving DecidableEq

/-- Frame::read_i32: four remaining bytes are required, then a big-endian
i32 is read and the cursor advances. -/
def Frame.readI32 (src : Cursor) : Except Frame.Error (Int × Cursor) :=
  if src.remaining < 4 then .error .Incomplete
  else .ok (beToI32 src.rest, src.advance 4)

/-- Frame::check: read the total length; if fewer bytes remain than the
length (cast through usize), report Incomplete, else skip the frame. -/
def Frame.check (src : Cursor) : Except Frame.Error Cursor :=
  match Frame.readI32 src with
  | .error e => .error e
  | .ok (frameLength, s1) =>
    if s1.remaining < usizeOfI32 frameLength then .error .Incomplete
    else .ok (s1.advance (usizeOfI32 frameLength))

/-- Outcome of Rust code that may panic. -/
inductive PanicOr (α : Type)
  | panic
  | val (a : α)
deriving DecidableEq

/-- Frame::parse: read both length fields (mapping a short read to a decode
error), copy the header bytes (Buf::copy_to_bytes panics when the requested
count exceeds what remains), deserialize the header JSON, then copy the body
when the computed body length is positive. The body-length subtraction uses
wrapping i32 arithmetic. -/
def Frame.parse (src : Cursor) : PanicOr (Except ClientError (Option Frame × Cursor)) :=
  match Frame.readI32 src with
  | .error _ => .val (.error (.InvalidFrame "Invalid frame length"))
  | .ok (frameLength, s1) =>
    match Frame.readI32 s1 with
    | .error _ => .val (.error (.InvalidFrame "Invalid frame header length"))
    | .ok (headerLength, s2) =>
      if s2.remaining < usizeOfI32 headerLength then .panic
      else
        let header := s2.rest.take (usizeOfI32 headerLength)
        let s3 := s2.advance (usizeOfI32 headerLength)
        match deserFrameHeader header with
        | none => .val (.error (.InvalidFrame "Invalid frame header JSON"))
        | some frame =>
          let bodyLength := wrap32 (frameLength - 4 - headerLength)
          if 0 < bodyLength then
            if s3.remaining < usizeOfI32 bodyLength then .panic
            else .val (.ok (some { frame with body := s3.rest.take (usizeOfI32 bodyLength) },
                            s3.advance (usizeOfI32 bodyLength)))
          else .val (.ok (some frame, s3))

/-- The byte buffer Frame::encode produces: big-endian total length (with
the Rust-side `as i32` wrap), big-endian header length, header JSON, body. -/
def Frame.encodeBytes (f : Frame) : List Nat :=
  i32be (4 + (serFrameHeader f).length + f.body.length)
    ++ i32be ((serFrameHeader f).length) ++ serFrameHeader f ++ f.body

/-- Frame::encode. serde_json::to_vec cannot fail on this schema (maps are
string-keyed and every field serializes infallibly), so the error branch of
the source is dead and the result is always Ok(Some(bytes)). -/
def Frame.encode (f : Frame) : Except ClientError (Option (List Nat)) :=
  .ok (some (Frame.encodeBytes f))

/-- The frame Type enum: request or response. -/
inductive FrameType
  | Request
  | Response
deriving DecidableEq

/-- Frame::frame_type tests bit 0 of the flag; for two's-complement values,
flag AND 1 equals 1 exactly when the flag is odd (emod 2 equals 1). -/
def Frame.frameType (f : Frame) : FrameType :=
  if f.flag % 2 = 1 then .Response else .Request

/-- Frame::mark_response_type sets bit 0 of the flag; ORing 1 into a
two's-complement value adds 1 exactly when the value is even. -/
def Frame.markResponseType (f : Frame) : Frame :=
  { f with flag := if f.flag % 2 = 0 then f.flag + 1 else f.flag }

/-! The stream connection of src/connection.rs. The socket is modelled as
the list of byte chunks successive read_buf calls deliver; an empty chunk
or an exhausted list is a zero-byte read. -/

/-- Connection state: the receive buffer and the pending socket deliveries. -/
structure Connection where
  buffer : List Nat
  incoming : List (List Nat)
deriving DecidableEq

/-- Connection::parse_frame: check for a complete frame over a fresh cursor;
on success re-parse from the start and discard the consumed bytes, on
Incomplete report no frame, and propagate other errors. -/
def Connection.parseFrame (buffer : List Nat) :
    PanicOr (Except ClientError (Option Frame × List Nat)) :=
  match Frame.check ⟨buffer, 0⟩ with
  | .ok cur =>
    match Frame.parse ⟨buffer, 0⟩ with
    | .panic => .panic
    | .val (.error e) => .val (.error e)
    | .val (.ok (frame, _)) => .val (.ok (frame, buffer.drop cur.pos))
  | .error .Incomplete => .val (.ok (none, buffer))
  | .error (.Other e) => .val (.error e)

/-- Connection::read_frame loop body: carve a frame out of the buffer; when
no complete frame is buffered, read the next chunk; a zero-byte read ends
the stream cleanly when the buffer is empty and is a connection reset
otherwise. The pending deliveries are the structural recursion argument, so
the loop is unrolled into the exhausted-stream clause and the
next-chunk-available clause; each clause dispatches on the parse result the
same way the source loop body does. -/
def Connection.readFrameAux : List (List Nat) → List Nat →
    PanicOr (Except ClientError (Option Frame × Connection))
  | [], buffer =>
    match Connection.parseFrame buffer with
    | .panic => .panic
    | .val (.error e) => .val (.error e)
    | .val (.ok (some f, buf2)) => .val (.ok (some f, ⟨buf2, []⟩))
    | .val (.ok (none, _)) =>
      if buffer = [] then .val (.ok (none, ⟨buffer, []⟩))
      else .val (.error .ConnectionReset)
  | chunk :: rest, buffer =>
    match Connection.parseFrame buffer with
    | .panic => .panic
    | .val (.error e) => .val (.error e)
    | .val (.ok (some f, buf2)) => .val (.ok (some f, ⟨buf2, chunk :: rest⟩))
    | .val (.ok (none, _)) =>
      if chunk = [] then
        if buffer = [] then .val (.ok (none, ⟨buffer, rest⟩))
        else .val (.error .ConnectionReset)
      else Connection.readFrameAux rest (buffer ++ chunk)

/-- Connection::read_frame on a connection state. -/
def Connection.readFrame (conn : Connection) :
    PanicOr (Except ClientError (Option Frame × Connection)) :=
  Connection.readFrameAux conn.incoming conn.buffer

/-- Concatenation of the chunks a socket delivers. -/
def joinChunks : List (List Nat) → List Nat
  | [] => []
  | c :: rest => c ++ joinChunks rest

/-- Connection::write_frame, returning the bytes written to the socket; the
under-lying transport is abstracted as succeeding, since the claim concerns
what a successful call has written and flushed. -/
def Connection.writeFrame (f : Frame) : Except ClientError (List Nat) :=
  match Frame.encode f with
  | .error e => .error e
  | .ok none => .ok []
  | .ok (some buf) => .ok buf

/-! The route cache of src/route.rs with its protocol records. -/

/-- The QueueData record of src/protocol.rs. -/
structure QueueData where
  broker_name : Str
  read_queue_nums : Int
  write_queue_nums : Int
  perm : Int
  topic_syn_flag : Int
deriving DecidableEq

/-- The BrokerData record of src/protocol.rs. -/
structure BrokerData where
  cluster : Str
  broker_name : Str
  broker_addrs : List (Int × Str)
deriving DecidableEq

/-- The TopicRouteData record of src/protocol.rs. -/
structure TopicRouteData where
  order_topic_conf : Option Str
  queue_datas : List QueueData
  broker_datas : List BrokerData
  filter_server_table : List (Str × List Str)
deriving DecidableEq

/-- HashMap::get over the association-list model of the route table. -/
def lookupAssoc {α : Type} : List (Str × α) → Str → Option α
  | [], _ => none
  | (k, v) :: rest, key => if k = key then some v else lookupAssoc rest key

/-- RouteManager state: the endpoint list and the topic route table. -/
structure RouteManager where
  endpoints : List Str
  topic_routes : List (Str × TopicRouteData)
deriving DecidableEq

/-- RouteManager::route. Mutex::lock returns Err exactly when the lock is
poisoned, which the poisoned flag models; a poisoned lock is reported as
ClientError::Unknown, a hit returns the shared cached value (Arc::clone
returns the same shared data), and a miss returns Ok(None). -/
def RouteManager.route (poisoned : Bool) (rm : RouteManager) (topic : Str) :
    Except ClientError (Option TopicRouteData) :=
  if poisoned then .error .Unknown
  else
    match lookupAssoc rm.topic_routes topic with
    | some value => .ok (some value)
    | none => .ok none

/-- Well-formed Frame: every integer field genuinely fits in an i32, as the
Rust types force. -/
def Frame.WF (f : Frame) : Prop :=
  IsI32 f.code ∧ IsI32 f.version ∧ IsI32 f.opaqueId ∧ IsI32 f.flag

instance (f : Frame) : Decidable f.WF := by unfold Frame.WF; infer_instance

/-! Concrete fixtures used to instantiate the theorems below. -/

/-- A concrete Frame exercising every header feature: nonzero code, CPP
language, negative opaque id, nonempty remark, one extension field and a
nonempty body. -/
def sampleFrame : Frame :=
  { code := 105, language := .CPP, version := 1, opaqueId := -7, flag := 0,
    remark := [104, 105], ext_fields := [([116, 111, 112, 105, 99], [84, 49])],
    body := [1, 2] }

/-- The worked example of the specification: code 105, CPP language, one
extension field topic=T1, empty body. -/
def specFrame : Frame :=
  { code := 105, language := .CPP, version := 0, opaqueId := 0, flag := 0,
    remark := [], ext_fields := [([116, 111, 112, 105, 99], [84, 49])],
    body := [] }

/-- A concrete empty route snapshot. -/
def sampleRoute : TopicRouteData :=
  { order_topic_conf := none, queue_datas := [], broker_datas := [],
    filter_server_table := [] }

/-- A route manager caching sampleRoute under the topic name T1. -/
def sampleManager : RouteManager :=
  { endpoints := [], topic_routes := [([84, 49], sampleRoute)] }

/-! Arithmetic facts about the i32 model. -/

theorem wrap32_eq_self {i : Int} (h : IsI32 i) : wrap32 i = i := by
  obtain ⟨h1, h2⟩ := h
  simp only [i32Min, i32Max] at h1 h2
  unfold wrap32
  omega

theorem usizeOfI32_eq_toNat {i : Int} (h1 : 0 ≤ i) (h2 : i ≤ i32Max) :
    usizeOfI32 i = i.toNat := by
  simp only [i32Max] at h2
  unfold usizeOfI32
  omega

theorem usizeOfI32_big {i : Int} (hlo : i32Min ≤ i) (h : i < 0) :
    2 ^ 63 ≤ usizeOfI32 i := by
  simp only [i32Min] at hlo
  unfold usizeOfI32
  omega

theorem length_i32be (i : Int) : (i32be i).length = 4 := rfl

theorem beToI32_i32be_append (i : Int) (h : IsI32 i) (rest : List Nat) :
    beToI32 (i32be i ++ rest) = i := by
  obtain ⟨h1, h2⟩ := h
  simp only [i32Min, i32Max] at h1 h2
  simp only [beToI32, i32be, List.cons_append, List.nil_append,
    List.getD_cons_zero, List.getD_cons_succ]
  split <;> omega

/-! Whitespace facts. -/

theorem skipWs_cons {c : Nat} (l : List Nat) (h : isWs c = false) :
    skipWs (c :: l) = c :: l := by
  simp [skipWs, h]

theorem skipWs_serStr (s : Str) (rest : List Nat) :
    skipWs (serStr s ++ rest) = serStr s ++ rest := by
  simp only [serStr, List.cons_append]
  exact skipWs_cons _ (by decide)

/-! String literal round-trip: decoding the serde_json escape of a string
recovers it exactly. -/

theorem hexVal_hexDigitChar (d : Nat) (h : d < 16) : hexVal (hexDigitChar d) = some d := by
  interval_cases d <;> rfl

theorem strBody_quote (rest : List Nat) : strBody (34 :: rest) = some ([], rest) := by
  rw [strBody.eq_def]; simp

theorem strBody_escaped (e t : Nat) (rest : List Nat)
    (h : (e, t) = (34, 34) ∨ (e, t) = (92, 92) ∨ (e, t) = (98, 8) ∨ (e, t) = (116, 9)
      ∨ (e, t) = (110, 10) ∨ (e, t) = (102, 12) ∨ (e, t) = (114, 13)) :
    strBody (92 :: e :: rest) = (strBody rest).map fun p => (t :: p.1, p.2) := by
  rcases h with h | h | h | h | h | h | h <;>
    (injection h with h1 h2; subst h1; subst h2; rw [strBody.eq_def]; simp)

theorem strBody_u00 (e3 e4 d3 d4 : Nat) (h3 : hexVal e3 = some d3)
    (h4 : hexVal e4 = some d4) (hv : d3 * 16 + d4 < 128) (rest : List Nat) :
    strBody (92 :: 117 :: 48 :: 48 :: e3 :: e4 :: rest) =
      (strBody rest).map fun p => ((d3 * 16 + d4) :: p.1, p.2) := by
  rw [strBody.eq_def]
  have h48 : hexVal 48 = some 0 := rfl
  simp [h48, h3, h4, utf8Encode, hv]

theorem strBody_raw (c : Nat) (rest : List Nat) (h34 : ¬c = 34) (h92 : ¬c = 92)
    (hctl : ¬c < 32) :
    strBody (c :: rest) = (strBody rest).map fun p => (c :: p.1, p.2) := by
  rw [strBody.eq_def]; simp [h34, h92, hctl]

theorem strBody_escBytes (s : Str) (rest : List Nat) :
    strBody (escBytes s ++ 34 :: rest) = some (s, rest) := by
  induction s with
  | nil => simpa [escBytes] using strBody_quote rest
  | cons c cs ih =>
    by_cases h34 : c = 34
    · subst h34
      simp [escBytes, escByte, List.append_assoc, strBody_escaped 34 34 _ (by tauto), ih]
    by_cases h92 : c = 92
    · subst h92
      simp [escBytes, escByte, List.append_assoc, strBody_escaped 92 92 _ (by tauto), ih]
    by_cases h8 : c = 8
    · subst h8
      simp [escBytes, escByte, List.append_assoc, strBody_escaped 98 8 _ (by tauto), ih]
    by_cases h9 : c = 9
    · subst h9
      simp [escBytes, escByte, List.append_assoc, strBody_escaped 116 9 _ (by tauto), ih]
    by_cases h10 : c = 10
    · subst h10
      simp [escBytes, escByte, List.append_assoc, strBody_escaped 110 10 _ (by tauto), ih]
    by_cases h12 : c = 12
    · subst h12
      simp [escBytes, escByte, List.append_assoc, strBody_escaped 102 12 _ (by tauto), ih]
    by_cases h13 : c = 13
    · subst h13
      simp [escBytes, escByte, List.append_assoc, strBody_escaped 114 13 _ (by tauto), ih]
    by_cases hctl : c < 32
    · have hd1 : c / 16 < 16 := by omega
      have hd2 : c % 16 < 16 := by omega
      have hv : c / 16 * 16 + c % 16 < 128 := by omega
      have hval : c / 16 * 16 + c % 16 = c := by omega
      have hstep := strBody_u00 (hexDigitChar (c / 16)) (hexDigitChar (c % 16))
        (c / 16) (c % 16) (hexVal_hexDigitChar _ hd1) (hexVal_hexDigitChar _ hd2) hv
        (escBytes cs ++ 34 :: rest)
      rw [hval] at hstep
      simp [escBytes, escByte, h34, h92, h8, h9, h10, h12, h13, hctl,
        List.append_assoc, hstep, ih]
    · simp [escBytes, escByte, h34, h92, h8, h9, h10, h12, h13, hctl,
        List.append_assoc, strBody_raw c _ h34 h92 hctl, ih]

theorem parseStr_serStr (s : Str) (rest : List Nat) :
    parseStr (serStr s ++ rest) = some (s, rest) := by
  simp [serStr, parseStr, List.cons_append, List.append_assoc, strBody_escBytes]

/-! Number literal round-trip. -/

theorem natCharsAux_irrel (fuel1 : Nat) : ∀ n fuel2, n < fuel1 → n < fuel2 →
    natCharsAux fuel1 n = natCharsAux fuel2 n := by
  induction fuel1 with
  | zero =>
    intro n fuel2 h1 _
    omega
  | succ f ih =>
    intro n fuel2 h1 h2
    cases fuel2 with
    | zero => omega
    | succ g =>
      by_cases h10 : n < 10
      · simp [natCharsAux, h10]
      · simp only [natCharsAux, h10, if_false]
        have hlt : n / 10 < n := Nat.div_lt_self (by omega) (by omega)
        rw [ih (n / 10) g (by omega) (by omega)]

theorem natChars_eq_base {m : Nat} (h : m < 10) : natChars m = [m + 48] := by
  unfold natChars
  simp [natCharsAux, h]

theorem natChars_eq_step {m : Nat} (h : ¬m < 10) :
    natChars m = natChars (m / 10) ++ [m % 10 + 48] := by
  have hlt : m / 10 < m := Nat.div_lt_self (by omega) (by omega)
  show natCharsAux (m + 1) m = natCharsAux (m / 10 + 1) (m / 10) ++ [m % 10 + 48]
  rw [show natCharsAux (m + 1) m
      = if m < 10 then [m + 48] else natCharsAux m (m / 10) ++ [m % 10 + 48] from rfl]
  rw [if_neg h]
  rw [natCharsAux_irrel m (m / 10) (m / 10 + 1) (by omega) (by omega)]

theorem digitsAcc_stop (acc : Nat) (l : List Nat) (h : headIsDigit l = false) :
    digitsAcc acc l = (acc, l) := by
  cases l with
  | nil => rfl
  | cons c cs =>
    simp only [headIsDigit] at h
    simp [digitsAcc, h]

theorem digitsAcc_natChars (m : Nat) : ∀ (acc : Nat) (rest : List Nat),
    digitsAcc acc (natChars m ++ rest)
      = digitsAcc (acc * 10 ^ (natChars m).length + m) rest := by
  induction m using Nat.strong_induction_on with
  | _ m ih =>
    intro acc rest
    by_cases h : m < 10
    · rw [natChars_eq_base h]
      have hd : isDigit (m + 48) = true := by simp [isDigit]; omega
      simp only [List.cons_append, List.nil_append, List.length_cons,
        List.length_nil, digitsAcc, hd, if_true, pow_one, zero_add]
      have hsub : m + 48 - 48 = m := by omega
      rw [hsub]
      rfl
    · rw [natChars_eq_step h, List.append_assoc]
      rw [ih (m / 10) (by omega) acc ([m % 10 + 48] ++ rest)]
      have hd : isDigit (m % 10 + 48) = true := by simp [isDigit]; omega
      simp only [List.cons_append, List.nil_append, digitsAcc, hd, if_true]
      have hsub : m % 10 + 48 - 48 = m % 10 := by omega
      rw [hsub]
      congr 1
      have hlen : (natChars (m / 10) ++ [m % 10 + 48]).length
          = (natChars (m / 10)).length + 1 := by simp
      rw [hlen]
      have hdm : m / 10 * 10 + m % 10 = m := by omega
      calc (acc * 10 ^ (natChars (m / 10)).length + m / 10) * 10 + m % 10
          = acc * (10 ^ (natChars (m / 10)).length * 10) + (m / 10 * 10 + m % 10) := by
            ring
        _ = acc * 10 ^ ((natChars (m / 10)).length + 1) + m := by rw [hdm, pow_succ]

theorem natChars_head (n : Nat) :
    ∃ c cs, natChars n = c :: cs ∧ isDigit c = true ∧ (n ≠ 0 → ¬c = 48) := by
  induction n using Nat.strong_induction_on with
  | _ n ih =>
    by_cases h : n < 10
    · refine ⟨n + 48, [], natChars_eq_base h, by simp [isDigit]; omega, ?_⟩
      intro h0
      omega
    · obtain ⟨c, cs, hc, hd, h48⟩ := ih (n / 10) (by omega)
      refine ⟨c, cs ++ [n % 10 + 48], ?_, hd, fun _ => h48 (by omega)⟩
      rw [natChars_eq_step h, hc]
      simp

theorem parseNat_natChars (n : Nat) (rest : List Nat) (h : headIsDigit rest = false) :
    parseNat (natChars n ++ rest) = some (n, rest) := by
  by_cases h0 : n = 0
  · subst h0
    rw [natChars_eq_base (by omega)]
    simp [parseNat]
  · obtain ⟨c, cs, hc, hd, h48⟩ := natChars_head n
    have h48' := h48 h0
    have key : digitsAcc 0 (natChars n ++ rest) = (n, rest) := by
      rw [digitsAcc_natChars]
      simpa using digitsAcc_stop n rest h
    rw [hc, List.cons_append] at key ⊢
    have hstep : digitsAcc 0 (c :: (cs ++ rest))
        = digitsAcc (0 * 10 + (c - 48)) (cs ++ rest) := by
      simp [digitsAcc, hd]
    rw [hstep] at key
    simp only [Nat.zero_mul, Nat.zero_add] at key
    simp [parseNat, h48', hd, key]

theorem parseIntTok_serInt (i : Int) (rest : List Nat) (h : headIsDigit rest = false) :
    parseIntTok (serInt i ++ rest) = some (i, rest) := by
  by_cases hneg : i < 0
  · unfold serInt
    rw [if_pos hneg, List.cons_append]
    simp only [parseIntTok, if_pos rfl]
    rw [parseNat_natChars _ _ h]
    simp
    omega
  · unfold serInt
    rw [if_neg hneg]
    obtain ⟨c, cs, hc, hd, _⟩ := natChars_head i.toNat
    have h45 : ¬c = 45 := by simp [isDigit] at hd; omega
    have hp := parseNat_natChars i.toNat rest h
    rw [hc, List.cons_append] at hp ⊢
    simp only [parseIntTok, if_neg h45]
    rw [hp]
    simp
    omega

theorem skipWs_serInt (i : Int) (rest : List Nat) :
    skipWs (serInt i ++ rest) = serInt i ++ rest := by
  by_cases hneg : i < 0
  · unfold serInt
    rw [if_pos hneg, List.cons_append]
    exact skipWs_cons _ (by decide)
  · unfold serInt
    rw [if_neg hneg]
    obtain ⟨c, cs, hc, hd, _⟩ := natChars_head i.toNat
    rw [hc, List.cons_append]
    refine skipWs_cons _ ?_
    simp [isDigit] at hd
    simp [isWs]
    omega

theorem parseI32_serInt (i : Int) (h : IsI32 i) (rest : List Nat)
    (hr : headIsDigit rest = false) :
    parseI32 (serInt i ++ rest) = some (i, rest) := by
  unfold parseI32
  rw [skipWs_serInt, parseIntTok_serInt i rest hr]
  simp [h]

/-! Round-trip of the string-to-string extension-field object. -/

theorem parseMapEntry_ser (k v : Str) (rest : List Nat) :
    parseMapEntry (serStr k ++ 58 :: (serStr v ++ rest)) = some ((k, v), rest) := by
  simp [parseMapEntry, skipWs_serStr, parseStr_serStr,
    skipWs_cons _ (by decide : isWs 58 = false)]

theorem parseMapGo_close (fuel : Nat) (acc : List (Str × Str)) (r : List Nat) :
    parseMapGo (fuel + 1) acc (125 :: r) = some (acc, r) := by
  simp [parseMapGo, skipWs_cons _ (by decide : isWs 125 = false)]

theorem parseMapGo_step (fuel : Nat) (acc : List (Str × Str)) (k v : Str) (r2 : List Nat) :
    parseMapGo (fuel + 1) acc (44 :: (serStr k ++ 58 :: (serStr v ++ r2)))
      = parseMapGo fuel (acc ++ [(k, v)]) r2 := by
  simp [parseMapGo, skipWs_cons _ (by decide : isWs 44 = false), parseMapEntry_ser]

theorem parseMapGo_serEntriesRest (entries : List (Str × Str)) :
    ∀ (acc : List (Str × Str)) (tail : List Nat) (fuel : Nat),
      entries.length + 1 ≤ fuel →
      parseMapGo fuel acc (serEntriesRest entries ++ 125 :: tail)
        = some (acc ++ entries, tail) := by
  induction entries with
  | nil =>
    intro acc tail fuel hf
    obtain ⟨m, rfl⟩ : ∃ m, fuel = m + 1 := ⟨fuel - 1, by omega⟩
    simpa [serEntriesRest] using parseMapGo_close m acc tail
  | cons kv entries ih =>
    intro acc tail fuel hf
    obtain ⟨k, v⟩ := kv
    obtain ⟨m, rfl⟩ : ∃ m, fuel = m + 1 := ⟨fuel - 1, by omega⟩
    rw [serEntriesRest]
    simp only [List.cons_append, List.nil_append, List.append_assoc]
    rw [parseMapGo_step]
    rw [ih (acc ++ [(k, v)]) tail m (by simp at hf; omega)]
    simp

theorem length_serEntriesRest (entries : List (Str × Str)) :
    entries.length ≤ (serEntriesRest entries).length := by
  induction entries with
  | nil => simp [serEntriesRest]
  | cons kv entries ih =>
    obtain ⟨k, v⟩ := kv
    rw [serEntriesRest]
    simp only [List.length_append, List.length_cons, List.length_nil]
    omega

theorem parseStrMap_serMap (ms : List (Str × Str)) (rest : List Nat) :
    parseStrMap (serMap ms ++ rest) = some (ms, rest) := by
  cases ms with
  | nil =>
    show parseStrMap ([123, 125] ++ rest) = some ([], rest)
    simp [parseStrMap, skipWs_cons _ (by decide : isWs 123 = false),
      skipWs_cons _ (by decide : isWs 125 = false)]
  | cons kv ms =>
    obtain ⟨k, v⟩ := kv
    have hfirst : serMap ((k, v) :: ms) ++ rest
        = 123 :: (serStr k ++ 58 :: (serStr v ++ (serEntriesRest ms ++ 125 :: rest))) := by
      simp [serMap, List.cons_append, List.append_assoc]
    have hcons : serStr k ++ 58 :: (serStr v ++ (serEntriesRest ms ++ 125 :: rest))
        = 34 :: (escBytes k ++ (34 :: (58 :: (serStr v ++ (serEntriesRest ms ++ 125 :: rest))))) := by
      simp [serStr, List.cons_append, List.append_assoc]
    have hentry := parseMapEntry_ser k v (serEntriesRest ms ++ 125 :: rest)
    rw [hcons] at hentry
    have hskip : skipWs (serStr k ++ 58 :: (serStr v ++ (serEntriesRest ms ++ 125 :: rest)))
        = serStr k ++ 58 :: (serStr v ++ (serEntriesRest ms ++ 125 :: rest)) := skipWs_serStr _ _
    rw [hcons] at hskip
    rw [hfirst]
    unfold parseStrMap
    rw [skipWs_cons _ (by decide : isWs 123 = false)]
    simp only [if_pos rfl, hcons, hskip, hentry]
    have hlen := length_serEntriesRest ms
    rw [parseMapGo_serEntriesRest ms [(k, v)] rest _ (by simp; omega)]
    simp

/-! Round-trip of the header object fields. -/

theorem parseLanguage_ser (lang : Language) (rest : List Nat) :
    parseLanguage (serStr lang.nameBytes ++ rest) = some (lang, rest) := by
  cases lang <;>
    simp [parseLanguage, skipWs_serStr, parseStr_serStr, Language.nameBytes]

theorem parseFieldValue_code (fuel : Nat) (acc : FrameAcc) (i : Int) (hi : IsI32 i)
    (hacc : acc.code = none) (rest : List Nat) (hr : headIsDigit rest = false) :
    parseFieldValue fuel acc keyCode (serInt i ++ rest)
      = some ({ acc with code := some i }, rest) := by
  simp [parseFieldValue, hacc, parseI32_serInt i hi rest hr]

theorem parseFieldValue_language (fuel : Nat) (acc : FrameAcc) (lang : Language)
    (hacc : acc.language = none) (rest : List Nat) :
    parseFieldValue fuel acc keyLanguage (serStr lang.nameBytes ++ rest)
      = some ({ acc with language := some lang }, rest) := by
  simp [parseFieldValue, (by decide : ¬(keyLanguage = keyCode)), hacc, parseLanguage_ser]

theorem parseFieldValue_version (fuel : Nat) (acc : FrameAcc) (i : Int) (hi : IsI32 i)
    (hacc : acc.version = none) (rest : List Nat) (hr : headIsDigit rest = false) :
    parseFieldValue fuel acc keyVersion (serInt i ++ rest)
      = some ({ acc with version := some i }, rest) := by
  simp [parseFieldValue, (by decide : ¬(keyVersion = keyCode)),
    (by decide : ¬(keyVersion = keyLanguage)), hacc, parseI32_serInt i hi rest hr]

theorem parseFieldValue_opq (fuel : Nat) (acc : FrameAcc) (i : Int) (hi : IsI32 i)
    (hacc : acc.opaqueId = none) (rest : List Nat) (hr : headIsDigit rest = false) :
    parseFieldValue fuel acc keyOpq (serInt i ++ rest)
      = some ({ acc with opaqueId := some i }, rest) := by
  simp [parseFieldValue, (by decide : ¬(keyOpq = keyCode)),
    (by decide : ¬(keyOpq = keyLanguage)), (by decide : ¬(keyOpq = keyVersion)),
    hacc, parseI32_serInt i hi rest hr]

theorem parseFieldValue_flag (fuel : Nat) (acc : FrameAcc) (i : Int) (hi : IsI32 i)
    (hacc : acc.flag = none) (rest : List Nat) (hr : headIsDigit rest = false) :
    parseFieldValue fuel acc keyFlag (serInt i ++ rest)
      = some ({ acc with flag := some i }, rest) := by
  simp [parseFieldValue, (by decide : ¬(keyFlag = keyCode)),
    (by decide : ¬(keyFlag = keyLanguage)), (by decide : ¬(keyFlag = keyVersion)),
    (by decide : ¬(keyFlag = keyOpq)), hacc, parseI32_serInt i hi rest hr]

theorem parseFieldValue_remark (fuel : Nat) (acc : FrameAcc) (s : Str)
    (hacc : acc.remark = none) (rest : List Nat) :
    parseFieldValue fuel acc keyRemark (serStr s ++ rest)
      = some ({ acc with remark := some s }, rest) := by
  simp [parseFieldValue, (by decide : ¬(keyRemark = keyCode)),
    (by decide : ¬(keyRemark = keyLanguage)), (by decide : ¬(keyRemark = keyVersion)),
    (by decide : ¬(keyRemark = keyOpq)), (by decide : ¬(keyRemark = keyFlag)),
    hacc, skipWs_serStr, parseStr_serStr]

theorem parseFieldValue_ext (fuel : Nat) (acc : FrameAcc) (ms : List (Str × Str))
    (hacc : acc.ext_fields = none) (rest : List Nat) :
    parseFieldValue fuel acc keyExtFields (serMap ms ++ rest)
      = some ({ acc with ext_fields := some ms }, rest) := by
  simp [parseFieldValue, (by decide : ¬(keyExtFields = keyCode)),
    (by decide : ¬(keyExtFields = keyLanguage)),
    (by decide : ¬(keyExtFields = keyVersion)),
    (by decide : ¬(keyExtFields = keyOpq)), (by decide : ¬(keyExtFields = keyFlag)),
    (by decide : ¬(keyExtFields = keyRemark)), hacc, parseStrMap_serMap]

theorem parseFieldEntry_ser (fuel : Nat) (acc : FrameAcc) (k : Str) (vl : List Nat)
    (res : FrameAcc × List Nat) (h : parseFieldValue fuel acc k vl = some res) :
    parseFieldEntry fuel acc (serStr k ++ 58 :: vl) = some res := by
  simp [parseFieldEntry, skipWs_serStr, parseStr_serStr,
    skipWs_cons _ (by decide : isWs 58 = false), h]

theorem parseFieldsGo_close (fuel : Nat) (acc : FrameAcc) (r : List Nat) :
    parseFieldsGo (fuel + 1) acc (125 :: r) = some (acc, r) := by
  simp [parseFieldsGo, skipWs_cons _ (by decide : isWs 125 = false)]

theorem parseFieldsGo_step (fuel : Nat) (acc acc2 : FrameAcc) (l r2 : List Nat)
    (h : parseFieldEntry fuel acc l = some (acc2, r2)) :
    parseFieldsGo (fuel + 1) acc (44 :: l) = parseFieldsGo fuel acc2 r2 := by
  simp [parseFieldsGo, skipWs_cons _ (by decide : isWs 44 = false), h]

theorem headIsDigit_cons44 (x : List Nat) : headIsDigit (44 :: x) = false := rfl

theorem headIsDigit_cons125 (x : List Nat) : headIsDigit (125 :: x) = false := rfl

theorem parseFieldsGo_frameFields (cd : Int) (lang : Language) (ver opq fl : Int)
    (remark : Str) (ext : List (Str × Str))
    (hv : IsI32 ver) (ho : IsI32 opq) (hfl : IsI32 fl)
    (fuel : Nat) (hfuel : 7 ≤ fuel) :
    parseFieldsGo fuel { code := some cd }
      (44 :: (serStr keyLanguage ++ 58 :: (serStr lang.nameBytes
        ++ 44 :: (serStr keyVersion ++ 58 :: (serInt ver
        ++ 44 :: (serStr keyOpq ++ 58 :: (serInt opq
        ++ 44 :: (serStr keyFlag ++ 58 :: (serInt fl
        ++ ((if remark = [] then [] else 44 :: (serStr keyRemark ++ 58 :: serStr remark))
          ++ ((if ext = [] then [] else 44 :: (serStr keyExtFields ++ 58 :: serMap ext))
            ++ [125])))))))))))
      = some ({ code := some cd, language := some lang, version := some ver,
                opaqueId := some opq, flag := some fl,
                remark := if remark = [] then none else some remark,
                ext_fields := if ext = [] then none else some ext }, []) := by
  obtain ⟨m, rfl⟩ : ∃ m, fuel = m + 7 := ⟨fuel - 7, by omega⟩
  by_cases hrm : remark = [] <;> by_cases hex : ext = []
  · simp only [hrm, hex, eq_self_iff_true, if_true, List.nil_append, List.cons_append, List.append_assoc]
    rw [parseFieldsGo_step (m + 6) _ _ _ _ (parseFieldEntry_ser _ _ _ _ _
      (parseFieldValue_language _ { code := some cd } lang rfl _))]
    rw [parseFieldsGo_step (m + 5) _ _ _ _ (parseFieldEntry_ser _ _ _ _ _
      (parseFieldValue_version _ { code := some cd, language := some lang }
        ver hv rfl _ (headIsDigit_cons44 _)))]
    rw [parseFieldsGo_step (m + 4) _ _ _ _ (parseFieldEntry_ser _ _ _ _ _
      (parseFieldValue_opq _ { code := some cd, language := some lang, version := some ver }
        opq ho rfl _ (headIsDigit_cons44 _)))]
    rw [parseFieldsGo_step (m + 3) _ _ _ _ (parseFieldEntry_ser _ _ _ _ _
      (parseFieldValue_flag _
        { code := some cd, language := some lang, version := some ver, opaqueId := some opq }
        fl hfl rfl _ (headIsDigit_cons125 _)))]
    rw [parseFieldsGo_close (m + 2)]
  · simp only [hrm, hex, eq_self_iff_true, if_true, if_false, List.nil_append, List.cons_append, List.append_assoc]
    rw [parseFieldsGo_step (m + 6) _ _ _ _ (parseFieldEntry_ser _ _ _ _ _
      (parseFieldValue_language _ { code := some cd } lang rfl _))]
    rw [parseFieldsGo_step (m + 5) _ _ _ _ (parseFieldEntry_ser _ _ _ _ _
      (parseFieldValue_version _ { code := some cd, language := some lang }
        ver hv rfl _ (headIsDigit_cons44 _)))]
    rw [parseFieldsGo_step (m + 4) _ _ _ _ (parseFieldEntry_ser _ _ _ _ _
      (parseFieldValue_opq _ { code := some cd, language := some lang, version := some ver }
        opq ho rfl _ (headIsDigit_cons44 _)))]
    rw [parseFieldsGo_step (m + 3) _ _ _ _ (parseFieldEntry_ser _ _ _ _ _
      (parseFieldValue_flag _
        { code := some cd, language := some lang, version := some ver, opaqueId := some opq }
        fl hfl rfl _ (headIsDigit_cons44 _)))]
    rw [parseFieldsGo_step (m + 2) _ _ _ _ (parseFieldEntry_ser _ _ _ _ _
      (parseFieldValue_ext _
        { code := some cd, language := some lang, version := some ver, opaqueId := some opq, flag := some fl }
        ext rfl _))]
    rw [parseFieldsGo_close (m + 1)]
  · simp only [hrm, hex, eq_self_iff_true, if_true, if_false, List.nil_append, List.cons_append, List.append_assoc]
    rw [parseFieldsGo_step (m + 6) _ _ _ _ (parseFieldEntry_ser _ _ _ _ _
      (parseFieldValue_language _ { code := some cd } lang rfl _))]
    rw [parseFieldsGo_step (m + 5) _ _ _ _ (parseFieldEntry_ser _ _ _ _ _
      (parseFieldValue_version _ { code := some cd, language := some lang }
        ver hv rfl _ (headIsDigit_cons44 _)))]
    rw [parseFieldsGo_step (m + 4) _ _ _ _ (parseFieldEntry_ser _ _ _ _ _
      (parseFieldValue_opq _ { code := some cd, language := some lang, version := some ver }
        opq ho rfl _ (headIsDigit_cons44 _)))]
    rw [parseFieldsGo_step (m + 3) _ _ _ _ (parseFieldEntry_ser _ _ _ _ _
      (parseFieldValue_flag _
        { code := some cd, language := some lang, version := some ver, opaqueId := some opq }
        fl hfl rfl _ (headIsDigit_cons44 _)))]
    rw [parseFieldsGo_step (m + 2) _ _ _ _ (parseFieldEntry_ser _ _ _ _ _
      (parseFieldValue_remark _
        { code := some cd, language := some lang, version := some ver, opaqueId := some opq, flag := some fl }
        remark rfl _))]
    rw [parseFieldsGo_close (m + 1)]
  · simp only [hrm, hex, if_false, eq_self_iff_true, List.nil_append, List.cons_append, List.append_assoc]
    rw [parseFieldsGo_step (m + 6) _ _ _ _ (parseFieldEntry_ser _ _ _ _ _
      (parseFieldValue_language _ { code := some cd } lang rfl _))]
    rw [parseFieldsGo_step (m + 5) _ _ _ _ (parseFieldEntry_ser _ _ _ _ _
      (parseFieldValue_version _ { code := some cd, language := some lang }
        ver hv rfl _ (headIsDigit_cons44 _)))]
    rw [parseFieldsGo_step (m + 4) _ _ _ _ (parseFieldEntry_ser _ _ _ _ _
      (parseFieldValue_opq _ { code := some cd, language := some lang, version := some ver }
        opq ho rfl _ (headIsDigit_cons44 _)))]
    rw [parseFieldsGo_step (m + 3) _ _ _ _ (parseFieldEntry_ser _ _ _ _ _
      (parseFieldValue_flag _
        { code := some cd, language := some lang, version := some ver, opaqueId := some opq }
        fl hfl rfl _ (headIsDigit_cons44 _)))]
    rw [parseFieldsGo_step (m + 2) _ _ _ _ (parseFieldEntry_ser _ _ _ _ _
      (parseFieldValue_remark _
        { code := some cd, language := some lang, version := some ver, opaqueId := some opq, flag := some fl }
        remark rfl _))]
    rw [parseFieldsGo_step (m + 1) _ _ _ _ (parseFieldEntry_ser _ _ _ _ _
      (parseFieldValue_ext _
        { code := some cd, language := some lang, version := some ver, opaqueId := some opq, flag := some fl, remark := some remark }
        ext rfl _))]
    rw [parseFieldsGo_close m]

theorem deserFrameHeader_serFrameHeader (f : Frame) (hwf : f.WF) :
    deserFrameHeader (serFrameHeader f) = some { f with body := [] } := by
  obtain ⟨hc, hv, ho, hfl⟩ := hwf
  have hnorm : serFrameHeader f = 123 :: (serStr keyCode ++ 58 :: (serInt f.code
      ++ 44 :: (serStr keyLanguage ++ 58 :: (serStr f.language.nameBytes
      ++ 44 :: (serStr keyVersion ++ 58 :: (serInt f.version
      ++ 44 :: (serStr keyOpq ++ 58 :: (serInt f.opaqueId
      ++ 44 :: (serStr keyFlag ++ 58 :: (serInt f.flag
      ++ ((if f.remark = [] then [] else 44 :: (serStr keyRemark ++ 58 :: serStr f.remark))
        ++ ((if f.ext_fields = [] then []
             else 44 :: (serStr keyExtFields ++ 58 :: serMap f.ext_fields))
          ++ [125])))))))))))) := by
    simp [serFrameHeader, List.cons_append, List.append_assoc]
  rw [hnorm]
  unfold deserFrameHeader
  generalize hF : (123 :: (serStr keyCode ++ 58 :: (serInt f.code
      ++ 44 :: (serStr keyLanguage ++ 58 :: (serStr f.language.nameBytes
      ++ 44 :: (serStr keyVersion ++ 58 :: (serInt f.version
      ++ 44 :: (serStr keyOpq ++ 58 :: (serInt f.opaqueId
      ++ 44 :: (serStr keyFlag ++ 58 :: (serInt f.flag
      ++ ((if f.remark = [] then [] else 44 :: (serStr keyRemark ++ 58 :: serStr f.remark))
        ++ ((if f.ext_fields = [] then []
             else 44 :: (serStr keyExtFields ++ 58 :: serMap f.ext_fields))
          ++ [125]))))))))))))).length + 1 = F
  have h6 : (serStr keyCode).length = 6 := by decide
  have hFge : 7 ≤ F := by
    rw [← hF]
    simp only [List.length_cons, List.length_append, h6]
    omega
  rw [skipWs_cons _ (by decide : isWs 123 = false)]
  have hskip : skipWs (serStr keyCode ++ 58 :: (serInt f.code
      ++ 44 :: (serStr keyLanguage ++ 58 :: (serStr f.language.nameBytes
      ++ 44 :: (serStr keyVersion ++ 58 :: (serInt f.version
      ++ 44 :: (serStr keyOpq ++ 58 :: (serInt f.opaqueId
      ++ 44 :: (serStr keyFlag ++ 58 :: (serInt f.flag
      ++ ((if f.remark = [] then [] else 44 :: (serStr keyRemark ++ 58 :: serStr f.remark))
        ++ ((if f.ext_fields = [] then []
             else 44 :: (serStr keyExtFields ++ 58 :: serMap f.ext_fields))
          ++ [125]))))))))))))
      = serStr keyCode ++ 58 :: (serInt f.code
      ++ 44 :: (serStr keyLanguage ++ 58 :: (serStr f.language.nameBytes
      ++ 44 :: (serStr keyVersion ++ 58 :: (serInt f.version
      ++ 44 :: (serStr keyOpq ++ 58 :: (serInt f.opaqueId
      ++ 44 :: (serStr keyFlag ++ 58 :: (serInt f.flag
      ++ ((if f.remark = [] then [] else 44 :: (serStr keyRemark ++ 58 :: serStr f.remark))
        ++ ((if f.ext_fields = [] then []
             else 44 :: (serStr keyExtFields ++ 58 :: serMap f.ext_fields))
          ++ [125]))))))))))) := skipWs_serStr _ _
  have hentry : parseFieldEntry F FrameAcc.init (serStr keyCode ++ 58 :: (serInt f.code
      ++ 44 :: (serStr keyLanguage ++ 58 :: (serStr f.language.nameBytes
      ++ 44 :: (serStr keyVersion ++ 58 :: (serInt f.version
      ++ 44 :: (serStr keyOpq ++ 58 :: (serInt f.opaqueId
      ++ 44 :: (serStr keyFlag ++ 58 :: (serInt f.flag
      ++ ((if f.remark = [] then [] else 44 :: (serStr keyRemark ++ 58 :: serStr f.remark))
        ++ ((if f.ext_fields = [] then []
             else 44 :: (serStr keyExtFields ++ 58 :: serMap f.ext_fields))
          ++ [125]))))))))))))
      = some ({ code := some f.code }, 44 :: (serStr keyLanguage ++ 58 :: (serStr f.language.nameBytes
      ++ 44 :: (serStr keyVersion ++ 58 :: (serInt f.version
      ++ 44 :: (serStr keyOpq ++ 58 :: (serInt f.opaqueId
      ++ 44 :: (serStr keyFlag ++ 58 :: (serInt f.flag
      ++ ((if f.remark = [] then [] else 44 :: (serStr keyRemark ++ 58 :: serStr f.remark))
        ++ ((if f.ext_fields = [] then []
             else 44 :: (serStr keyExtFields ++ 58 :: serMap f.ext_fields))
          ++ [125]))))))))))) :=
    parseFieldEntry_ser _ _ _ _ _
      (parseFieldValue_code F FrameAcc.init f.code hc rfl _ (headIsDigit_cons44 _))
  have hcons : serStr keyCode ++ 58 :: (serInt f.code
      ++ 44 :: (serStr keyLanguage ++ 58 :: (serStr f.language.nameBytes
      ++ 44 :: (serStr keyVersion ++ 58 :: (serInt f.version
      ++ 44 :: (serStr keyOpq ++ 58 :: (serInt f.opaqueId
      ++ 44 :: (serStr keyFlag ++ 58 :: (serInt f.flag
      ++ ((if f.remark = [] then [] else 44 :: (serStr keyRemark ++ 58 :: serStr f.remark))
        ++ ((if f.ext_fields = [] then []
             else 44 :: (serStr keyExtFields ++ 58 :: serMap f.ext_fields))
          ++ [125])))))))))))
      = 34 :: (escBytes keyCode ++ (34 :: (58 :: (serInt f.code
      ++ 44 :: (serStr keyLanguage ++ 58 :: (serStr f.language.nameBytes
      ++ 44 :: (serStr keyVersion ++ 58 :: (serInt f.version
      ++ 44 :: (serStr keyOpq ++ 58 :: (serInt f.opaqueId
      ++ 44 :: (serStr keyFlag ++ 58 :: (serInt f.flag
      ++ ((if f.remark = [] then [] else 44 :: (serStr keyRemark ++ 58 :: serStr f.remark))
        ++ ((if f.ext_fields = [] then []
             else 44 :: (serStr keyExtFields ++ 58 :: serMap f.ext_fields))
          ++ [125])))))))))))))) := by
    simp [serStr, List.cons_append, List.append_assoc]
  rw [hcons] at hskip hentry
  simp only [if_pos rfl, hcons, hskip, hentry]
  rw [parseFieldsGo_frameFields f.code f.language f.version f.opaqueId f.flag
    f.remark f.ext_fields hv ho hfl F hFge]
  by_cases hr : f.remark = [] <;> by_cases he : f.ext_fields = [] <;>
    simp [finishFrame, skipWs, hr, he]
/-! Cursor-level lemmas: read_i32, then parsing an encoded frame (with any
trailing bytes) recovers the frame exactly. -/

theorem readI32_at (L : List Nat) (p : Nat) (i : Int) (hi : IsI32 i) (rest : List Nat)
    (hdrop : L.drop p = i32be i ++ rest) :
    Frame.readI32 ⟨L, p⟩ = .ok (i, ⟨L, p + 4⟩) := by
  have hlen : (L.drop p).length = 4 + rest.length := by
    rw [hdrop]
    simp [length_i32be]
  rw [List.length_drop] at hlen
  have hrem : ¬((⟨L, p⟩ : Cursor).remaining < 4) := by
    simp only [Cursor.remaining]
    omega
  unfold Frame.readI32
  rw [if_neg hrem]
  simp only [Cursor.rest, Cursor.advance]
  rw [hdrop, beToI32_i32be_append i hi rest]

theorem encodeBytes_eq (f : Frame) :
    Frame.encodeBytes f
      = i32be (4 + (serFrameHeader f).length + f.body.length)
        ++ (i32be ((serFrameHeader f).length : Int)
        ++ (serFrameHeader f ++ f.body)) := by
  simp [Frame.encodeBytes, List.append_assoc]

theorem length_encodeBytes (f : Frame) :
    (Frame.encodeBytes f).length = 8 + (serFrameHeader f).length + f.body.length := by
  rw [encodeBytes_eq]
  simp [length_i32be]
  omega

theorem parse_encodeBytes_append (f : Frame) (hwf : f.WF)
    (hfit : 4 + (serFrameHeader f).length + f.body.length ≤ 2 ^ 31 - 1) (tail : List Nat) :
    Frame.parse ⟨Frame.encodeBytes f ++ tail, 0⟩ =
      .val (.ok (some f, ⟨Frame.encodeBytes f ++ tail, (Frame.encodeBytes f).length⟩)) := by
  have hTotal : IsI32 (4 + ((serFrameHeader f).length : Int) + (f.body.length : Int)) := by
    constructor <;> simp only [i32Min, i32Max] <;> omega
  have hHl : IsI32 ((serFrameHeader f).length : Int) := by
    constructor <;> simp only [i32Min, i32Max] <;> omega
  have hBl : IsI32 ((f.body.length : Int)) := by
    constructor <;> simp only [i32Min, i32Max] <;> omega
  have hL : Frame.encodeBytes f ++ tail
      = i32be (4 + ((serFrameHeader f).length : Int) + (f.body.length : Int))
        ++ (i32be ((serFrameHeader f).length : Int)
        ++ (serFrameHeader f ++ (f.body ++ tail))) := by
    rw [encodeBytes_eq]
    simp [List.append_assoc]
  have hd0 : (Frame.encodeBytes f ++ tail).drop 0
      = i32be (4 + ((serFrameHeader f).length : Int) + (f.body.length : Int))
        ++ (i32be ((serFrameHeader f).length : Int)
        ++ (serFrameHeader f ++ (f.body ++ tail))) := by
    rw [List.drop_zero, hL]
  have hd4 : (Frame.encodeBytes f ++ tail).drop 4
      = i32be ((serFrameHeader f).length : Int)
        ++ (serFrameHeader f ++ (f.body ++ tail)) := by
    rw [hL]
    rw [show (4 : Nat)
        = (i32be (4 + ((serFrameHeader f).length : Int) + (f.body.length : Int))).length
      from (length_i32be _).symm]
    exact List.drop_left _ _
  have hd8 : (Frame.encodeBytes f ++ tail).drop 8
      = serFrameHeader f ++ (f.body ++ tail) := by
    rw [hL, ← List.append_assoc]
    rw [show (8 : Nat)
        = ((i32be (4 + ((serFrameHeader f).length : Int) + (f.body.length : Int)))
          ++ i32be ((serFrameHeader f).length : Int)).length
      from by simp [length_i32be]]
    exact List.drop_left _ _
  have hLlen : (Frame.encodeBytes f ++ tail).length
      = 8 + (serFrameHeader f).length + (f.body.length + tail.length) := by
    simp [length_encodeBytes]
    omega
  unfold Frame.parse
  rw [readI32_at _ 0 _ hTotal _ hd0]
  simp only [Nat.zero_add]
  rw [readI32_at _ 4 _ hHl _ hd4]
  simp only [show (4 : Nat) + 4 = 8 from rfl]
  have husize : usizeOfI32 ((serFrameHeader f).length : Int) = (serFrameHeader f).length := by
    rw [usizeOfI32_eq_toNat (by omega) hHl.2]
    omega
  have hrem8 : ¬((⟨Frame.encodeBytes f ++ tail, 8⟩ : Cursor).remaining
      < usizeOfI32 ((serFrameHeader f).length : Int)) := by
    simp only [Cursor.remaining, husize, hLlen]
    omega
  rw [if_neg hrem8]
  have hheader : ((⟨Frame.encodeBytes f ++ tail, 8⟩ : Cursor).rest).take
      (usizeOfI32 ((serFrameHeader f).length : Int)) = serFrameHeader f := by
    simp only [Cursor.rest, husize]
    rw [hd8]
    exact List.take_left _ _
  rw [hheader, deserFrameHeader_serFrameHeader f hwf]
  have hbodyLen : wrap32 (4 + ((serFrameHeader f).length : Int) + (f.body.length : Int)
      - 4 - ((serFrameHeader f).length : Int)) = (f.body.length : Int) := by
    rw [show (4 + ((serFrameHeader f).length : Int) + (f.body.length : Int)
      - 4 - ((serFrameHeader f).length : Int)) = ((f.body.length : Int)) from by ring]
    exact wrap32_eq_self hBl
  simp only [hbodyLen]
  by_cases hbody : f.body = []
  · rw [if_neg (by simp [hbody])]
    have heta2 : { f with body := ([] : List Nat) } = f := by
      cases f
      simp_all
    simp only [Cursor.advance]
    rw [heta2]
    have hposEq : (8 : Nat) + usizeOfI32 ((serFrameHeader f).length : Int)
        = (Frame.encodeBytes f).length := by
      rw [husize, length_encodeBytes]
      simp [hbody]
    rw [hposEq]
  · have hpos : (0 : Int) < (f.body.length : Int) := by
      have : f.body.length ≠ 0 := by simpa using hbody
      omega
    rw [if_pos hpos]
    have husizeB : usizeOfI32 ((f.body.length : Int)) = f.body.length := by
      rw [usizeOfI32_eq_toNat (by omega) hBl.2]
      omega
    simp only [Cursor.advance]
    have hremB : ¬((⟨Frame.encodeBytes f ++ tail,
        8 + usizeOfI32 ((serFrameHeader f).length : Int)⟩ : Cursor).remaining
        < usizeOfI32 ((f.body.length : Int))) := by
      simp only [Cursor.remaining, husize, husizeB, hLlen]
      omega
    rw [if_neg hremB]
    have hdB : (Frame.encodeBytes f ++ tail).drop (8 + (serFrameHeader f).length)
        = f.body ++ tail := by
      rw [hL, ← List.append_assoc, ← List.append_assoc]
      rw [show (8 + (serFrameHeader f).length : Nat)
          = ((i32be (4 + ((serFrameHeader f).length : Int) + (f.body.length : Int))
            ++ i32be ((serFrameHeader f).length : Int)) ++ serFrameHeader f).length
        from by simp [length_i32be]; omega]
      exact List.drop_left _ _
    have hbodyTake : ((⟨Frame.encodeBytes f ++ tail,
        8 + usizeOfI32 ((serFrameHeader f).length : Int)⟩ : Cursor).rest).take
        (usizeOfI32 ((f.body.length : Int))) = f.body := by
      simp only [Cursor.rest, husize, husizeB]
      rw [hdB]
      exact List.take_left _ _
    rw [hbodyTake]
    have heta : { { f with body := ([] : List Nat) } with body := f.body } = f := rfl
    rw [heta]
    have hposEq : ((8 : Nat) + usizeOfI32 ((serFrameHeader f).length : Int))
        + usizeOfI32 ((f.body.length : Int)) = (Frame.encodeBytes f).length := by
      rw [husize, husizeB, length_encodeBytes]
    rw [hposEq]
/-! Frame::check behavior. -/

theorem check_ok (fl : Int) (hfl : IsI32 fl) (h0 : 0 ≤ fl) (data : List Nat)
    (hlen : fl.toNat ≤ data.length) :
    Frame.check ⟨i32be fl ++ data, 0⟩ = .ok ⟨i32be fl ++ data, 4 + fl.toNat⟩ := by
  unfold Frame.check
  rw [readI32_at _ 0 _ hfl _ (by rw [List.drop_zero])]
  simp only [Nat.zero_add]
  have hu : usizeOfI32 fl = fl.toNat := usizeOfI32_eq_toNat h0 hfl.2
  have hrem : ¬((⟨i32be fl ++ data, 4⟩ : Cursor).remaining < usizeOfI32 fl) := by
    simp only [Cursor.remaining, hu, List.length_append, length_i32be]
    omega
  rw [if_neg hrem]
  simp only [Cursor.advance, hu]

theorem check_incomplete (fl : Int) (hfl : IsI32 fl) (h0 : 0 ≤ fl) (data : List Nat)
    (hlen : data.length < fl.toNat) :
    Frame.check ⟨i32be fl ++ data, 0⟩ = .error .Incomplete := by
  unfold Frame.check
  rw [readI32_at _ 0 _ hfl _ (by rw [List.drop_zero])]
  simp only [Nat.zero_add]
  have hu : usizeOfI32 fl = fl.toNat := usizeOfI32_eq_toNat h0 hfl.2
  have hrem : (⟨i32be fl ++ data, 4⟩ : Cursor).remaining < usizeOfI32 fl := by
    simp only [Cursor.remaining, hu, List.length_append, length_i32be]
    omega
  rw [if_pos hrem]

theorem check_negative (fl : Int) (hfl : IsI32 fl) (hneg : fl < 0) (data : List Nat)
    (hlen : data.length < 2 ^ 63) :
    Frame.check ⟨i32be fl ++ data, 0⟩ = .error .Incomplete := by
  unfold Frame.check
  rw [readI32_at _ 0 _ hfl _ (by rw [List.drop_zero])]
  simp only [Nat.zero_add]
  have hu : 2 ^ 63 ≤ usizeOfI32 fl := usizeOfI32_big hfl.1 hneg
  have hrem : (⟨i32be fl ++ data, 4⟩ : Cursor).remaining < usizeOfI32 fl := by
    simp only [Cursor.remaining, List.length_append, length_i32be]
    omega
  rw [if_pos hrem]

theorem check_no_decode_error (src : Cursor) (e : ClientError) :
    Frame.check src ≠ .error (.Other e) := by
  unfold Frame.check Frame.readI32
  by_cases h : src.remaining < 4
  · simp [h]
  · simp only [h, if_false, if_neg h]
    split <;> simp

theorem check_encodeBytes (f : Frame)
    (hfit : 4 + (serFrameHeader f).length + f.body.length ≤ 2 ^ 31 - 1) (tail : List Nat) :
    Frame.check ⟨Frame.encodeBytes f ++ tail, 0⟩
      = .ok ⟨Frame.encodeBytes f ++ tail, (Frame.encodeBytes f).length⟩ := by
  have hTotal : IsI32 (4 + ((serFrameHeader f).length : Int) + (f.body.length : Int)) := by
    constructor <;> simp only [i32Min, i32Max] <;> omega
  have hL : Frame.encodeBytes f ++ tail
      = i32be (4 + ((serFrameHeader f).length : Int) + (f.body.length : Int))
        ++ ((i32be ((serFrameHeader f).length : Int) ++ (serFrameHeader f ++ f.body)) ++ tail) := by
    rw [encodeBytes_eq]
    simp [List.append_assoc]
  have htot : (4 + ((serFrameHeader f).length : Int) + (f.body.length : Int)).toNat
      = 4 + (serFrameHeader f).length + f.body.length := by omega
  rw [hL]
  rw [check_ok _ hTotal (by omega) _ (by simp [length_i32be, htot]; omega)]
  rw [← hL]
  have : (4 : Nat) + (4 + ((serFrameHeader f).length : Int) + (f.body.length : Int)).toNat
      = (Frame.encodeBytes f).length := by
    rw [htot, length_encodeBytes]
    omega
  rw [this]

theorem check_prefix_incomplete (f : Frame)
    (hfit : 4 + (serFrameHeader f).length + f.body.length ≤ 2 ^ 31 - 1) (k : Nat)
    (hk : k < (Frame.encodeBytes f).length) :
    Frame.check ⟨(Frame.encodeBytes f).take k, 0⟩ = .error .Incomplete := by
  have hTotal : IsI32 (4 + ((serFrameHeader f).length : Int) + (f.body.length : Int)) := by
    constructor <;> simp only [i32Min, i32Max] <;> omega
  have hlenEnc := length_encodeBytes f
  by_cases h4 : k < 4
  · unfold Frame.check Frame.readI32
    rw [if_pos (by
      simp only [Cursor.remaining, List.length_take]
      omega)]
  · have htake : (Frame.encodeBytes f).take k
        = i32be (4 + ((serFrameHeader f).length : Int) + (f.body.length : Int))
          ++ ((i32be ((serFrameHeader f).length : Int) ++ (serFrameHeader f ++ f.body)).take (k - 4)) := by
      rw [encodeBytes_eq, List.take_append_eq_append_take]
      rw [List.take_of_length_le (by simp [length_i32be]; omega), length_i32be]
    have htot : (4 + ((serFrameHeader f).length : Int) + (f.body.length : Int)).toNat
        = 4 + (serFrameHeader f).length + f.body.length := by omega
    rw [htake]
    rw [check_incomplete _ hTotal (by omega) _ (by
      simp only [List.length_take, List.length_append, length_i32be, htot]
      rw [length_encodeBytes] at hk
      omega)]

/-! Connection::parse_frame behavior on encoded frames and on prefixes. -/

theorem parseFrame_encode (f : Frame) (hwf : f.WF)
    (hfit : 4 + (serFrameHeader f).length + f.body.length ≤ 2 ^ 31 - 1) (tail : List Nat) :
    Connection.parseFrame (Frame.encodeBytes f ++ tail) = .val (.ok (some f, tail)) := by
  unfold Connection.parseFrame
  rw [check_encodeBytes f hfit tail]
  rw [parse_encodeBytes_append f hwf hfit tail]
  have hdrop : (Frame.encodeBytes f ++ tail).drop (Frame.encodeBytes f).length = tail :=
    List.drop_left _ _
  simp [hdrop]

theorem parseFrame_prefix (f : Frame)
    (hfit : 4 + (serFrameHeader f).length + f.body.length ≤ 2 ^ 31 - 1) (k : Nat)
    (hk : k < (Frame.encodeBytes f).length) :
    Connection.parseFrame ((Frame.encodeBytes f).take k)
      = .val (.ok (none, (Frame.encodeBytes f).take k)) := by
  unfold Connection.parseFrame
  rw [check_prefix_incomplete f hfit k hk]
/-! Connection::read_frame over chunked delivery. -/

theorem readFrameAux_step (buffer c : List Nat) (cs : List (List Nat))
    (hpf : Connection.parseFrame buffer = .val (.ok (none, buffer)))
    (hc : ¬c = []) :
    Connection.readFrameAux (c :: cs) buffer = Connection.readFrameAux cs (buffer ++ c) := by
  simp [Connection.readFrameAux, hpf, hc]

theorem readFrameAux_found (incoming : List (List Nat)) (buffer buf2 : List Nat) (f : Frame)
    (hpf : Connection.parseFrame buffer = .val (.ok (some f, buf2))) :
    Connection.readFrameAux incoming buffer = .val (.ok (some f, ⟨buf2, incoming⟩)) := by
  cases incoming <;> simp [Connection.readFrameAux, hpf]

theorem readFrame_chunks_aux (f : Frame) (hwf : f.WF)
    (hfit : 4 + (serFrameHeader f).length + f.body.length ≤ 2 ^ 31 - 1) :
    ∀ (chunks : List (List Nat)) (pre extra : List Nat),
      (∀ c ∈ chunks, c ≠ []) →
      pre ++ joinChunks chunks = Frame.encodeBytes f ++ extra →
      pre.length < (Frame.encodeBytes f).length →
      pre = (Frame.encodeBytes f).take pre.length →
      ∃ leftover rest,
        Connection.readFrameAux chunks pre = .val (.ok (some f, ⟨leftover, rest⟩))
        ∧ leftover ++ joinChunks rest = extra := by
  intro chunks
  induction chunks with
  | nil =>
    intro pre extra hne hjoin hlt hpre
    exfalso
    have hlen := congrArg List.length hjoin
    simp only [joinChunks, List.append_nil, List.length_append] at hlen
    omega
  | cons c cs ih =>
    intro pre extra hne hjoin hlt hpre
    have hcne : ¬c = [] := hne c (by simp)
    have hpf : Connection.parseFrame pre = .val (.ok (none, pre)) := by
      rw [hpre]
      exact parseFrame_prefix f hfit pre.length hlt
    rw [readFrameAux_step pre c cs hpf hcne]
    have hjoin2 : (pre ++ c) ++ joinChunks cs = Frame.encodeBytes f ++ extra := by
      rw [List.append_assoc]
      simpa only [joinChunks, List.append_assoc] using hjoin
    by_cases hlen2 : (pre ++ c).length < (Frame.encodeBytes f).length
    · have h1 : pre ++ c = (Frame.encodeBytes f ++ extra).take (pre ++ c).length := by
        rw [← hjoin2]
        exact (List.take_left _ _).symm
      have hpre2 : pre ++ c = (Frame.encodeBytes f).take (pre ++ c).length := by
        conv_lhs => rw [h1]
        rw [List.take_append_of_le_length (le_of_lt hlen2)]
      exact ih (pre ++ c) extra (fun d hd => hne d (by simp [hd])) hjoin2 hlen2 hpre2
    · push_neg at hlen2
      have h1 : pre ++ c = (Frame.encodeBytes f ++ extra).take (pre ++ c).length := by
        rw [← hjoin2]
        exact (List.take_left _ _).symm
      have h2 : pre ++ c = Frame.encodeBytes f
          ++ extra.take ((pre ++ c).length - (Frame.encodeBytes f).length) := by
        conv_lhs => rw [h1]
        rw [List.take_append_eq_append_take, List.take_of_length_le hlen2]
      refine ⟨extra.take ((pre ++ c).length - (Frame.encodeBytes f).length), cs, ?_, ?_⟩
      · have hfound := readFrameAux_found cs
          (Frame.encodeBytes f
            ++ extra.take ((pre ++ c).length - (Frame.encodeBytes f).length))
          (extra.take ((pre ++ c).length - (Frame.encodeBytes f).length)) f
          (parseFrame_encode f hwf hfit _)
        rw [← h2] at hfound
        exact hfound
      · have h3 := hjoin2
        rw [h2, List.append_assoc] at h3
        exact List.append_cancel_left h3
/-! The claim theorems. -/

/-- C1: for every well-formed Frame (integer fields in i32 range, encoded
size within the i32 range), parsing the byte buffer produced by encode with
Frame::parse yields a Frame equal to the original:
decode(encode(f)) = f. -/
theorem frame_roundtrip_decode_encode (f : Frame) (hwf : f.WF)
    (hfit : 4 + (serFrameHeader f).length + f.body.length ≤ 2 ^ 31 - 1) :
    Frame.parse ⟨Frame.encodeBytes f, 0⟩
      = .val (.ok (some f, ⟨Frame.encodeBytes f, (Frame.encodeBytes f).length⟩)) := by
  have h := parse_encodeBytes_append f hwf hfit []
  simpa using h

set_option maxRecDepth 10000 in
/-- Witness for C1 at a concrete frame exercising code, language, version,
negative opaque id, remark, extension fields and body. -/
theorem frame_roundtrip_decode_encode_witness :
    (sampleFrame.WF
      ∧ 4 + (serFrameHeader sampleFrame).length + sampleFrame.body.length ≤ 2 ^ 31 - 1)
    ∧ Frame.parse ⟨Frame.encodeBytes sampleFrame, 0⟩
      = .val (.ok (some sampleFrame,
          ⟨Frame.encodeBytes sampleFrame, (Frame.encodeBytes sampleFrame).length⟩)) :=
  ⟨⟨by decide, by decide⟩, frame_roundtrip_decode_encode sampleFrame (by decide) (by decide)⟩

/-- C2 counterexample: with total length 100 and header length 50 but no
further bytes, the header length exceeds the available data, yet Frame::parse
does not fail with a decode error: Buf::copy_to_bytes panics. -/
theorem parse_header_overrun_panics :
    Frame.parse ⟨[0, 0, 0, 100, 0, 0, 0, 50], 0⟩ = PanicOr.panic := by decide

/-- C2 (amended): Frame::parse fails with a decode error when a length field
cannot be read or when the header bytes are not valid JSON for the schema;
but when header_length exceeds the data available in the cursor it panics
(copy_to_bytes) instead of returning a decode error. -/
theorem parse_error_modes (fl hl : Int) (hfl : IsI32 fl) (hhl : IsI32 hl) (data : List Nat) :
    (data.length < usizeOfI32 hl →
      Frame.parse ⟨i32be fl ++ (i32be hl ++ data), 0⟩ = .panic) ∧
    (usizeOfI32 hl ≤ data.length → deserFrameHeader (data.take (usizeOfI32 hl)) = none →
      Frame.parse ⟨i32be fl ++ (i32be hl ++ data), 0⟩
        = .val (.error (.InvalidFrame "Invalid frame header JSON"))) ∧
    (∀ l : List Nat, l.length < 4 →
      Frame.parse ⟨l, 0⟩ = .val (.error (.InvalidFrame "Invalid frame length"))) ∧
    (∀ l : List Nat, 4 ≤ l.length → l.length < 8 →
      Frame.parse ⟨l, 0⟩ = .val (.error (.InvalidFrame "Invalid frame header length"))) := by
  refine ⟨?_, ?_, ?_, ?_⟩
  · intro hshort
    unfold Frame.parse
    rw [readI32_at _ 0 _ hfl _ (by rw [List.drop_zero])]
    simp only [Nat.zero_add]
    rw [readI32_at _ 4 _ hhl _ (by
      rw [show (4 : Nat) = (i32be fl).length from (length_i32be fl).symm]
      exact List.drop_left _ _)]
    simp only [show (4 : Nat) + 4 = 8 from rfl]
    rw [if_pos (by
      simp only [Cursor.remaining, List.length_append, length_i32be]
      omega)]
  · intro hlong hbad
    unfold Frame.parse
    rw [readI32_at _ 0 _ hfl _ (by rw [List.drop_zero])]
    simp only [Nat.zero_add]
    rw [readI32_at _ 4 _ hhl _ (by
      rw [show (4 : Nat) = (i32be fl).length from (length_i32be fl).symm]
      exact List.drop_left _ _)]
    simp only [show (4 : Nat) + 4 = 8 from rfl]
    rw [if_neg (by
      simp only [Cursor.remaining, List.length_append, length_i32be]
      omega)]
    have hrest : (⟨i32be fl ++ (i32be hl ++ data), 8⟩ : Cursor).rest = data := by
      simp only [Cursor.rest]
      rw [← List.append_assoc]
      rw [show (8 : Nat) = (i32be fl ++ i32be hl).length from by simp [length_i32be]]
      exact List.drop_left _ _
    rw [hrest, hbad]
  · intro l hl4
    unfold Frame.parse Frame.readI32
    rw [if_pos (by simp only [Cursor.remaining]; omega)]
  · intro l hl4 hl8
    unfold Frame.parse
    have hread : Frame.readI32 ⟨l, 0⟩ = .ok (beToI32 (l.drop 0), ⟨l, 0 + 4⟩) := by
      unfold Frame.readI32
      rw [if_neg (by simp only [Cursor.remaining]; omega)]
      rfl
    rw [hread]
    simp only [Nat.zero_add]
    unfold Frame.readI32
    rw [if_pos (by simp only [Cursor.remaining]; omega)]

/-- Witness for C2 (amended) at total length 100, header length 50 and an
empty remainder. -/
theorem parse_error_modes_witness :
    (IsI32 100 ∧ IsI32 50) ∧
    ((([] : List Nat).length < usizeOfI32 50 →
      Frame.parse ⟨i32be 100 ++ (i32be 50 ++ []), 0⟩ = .panic) ∧
    (usizeOfI32 50 ≤ ([] : List Nat).length →
      deserFrameHeader (([] : List Nat).take (usizeOfI32 50)) = none →
      Frame.parse ⟨i32be 100 ++ (i32be 50 ++ []), 0⟩
        = .val (.error (.InvalidFrame "Invalid frame header JSON"))) ∧
    (∀ l : List Nat, l.length < 4 →
      Frame.parse ⟨l, 0⟩ = .val (.error (.InvalidFrame "Invalid frame length"))) ∧
    (∀ l : List Nat, 4 ≤ l.length → l.length < 8 →
      Frame.parse ⟨l, 0⟩ = .val (.error (.InvalidFrame "Invalid frame header length")))) :=
  ⟨⟨by decide, by decide⟩, parse_error_modes 100 50 (by decide) (by decide) []⟩

/-- C3 counterexample: a malformed negative total length (bytes FF FF FF FF,
the i32 value -1) is reported as Incomplete by Frame::check, not surfaced as
a decode error. -/
theorem check_negative_length_counterexample :
    Frame.check ⟨[255, 255, 255, 255], 0⟩ = .error Frame.Error.Incomplete := by decide

/-- C3 (amended): Frame::check reads a 4-byte total_length; with fewer than
total_length remaining bytes it reports Incomplete, with enough bytes it
advances exactly past the full frame and succeeds; but a malformed negative
length value is cast to a huge unsigned size and thus also treated as
Incomplete — check never surfaces a decode error. -/
theorem check_length_semantics (fl : Int) (hfl : IsI32 fl) (data : List Nat) :
    (0 ≤ fl → data.length < fl.toNat →
      Frame.check ⟨i32be fl ++ data, 0⟩ = .error .Incomplete) ∧
    (0 ≤ fl → fl.toNat ≤ data.length →
      Frame.check ⟨i32be fl ++ data, 0⟩ = .ok ⟨i32be fl ++ data, 4 + fl.toNat⟩) ∧
    (fl < 0 → data.length < 2 ^ 63 →
      Frame.check ⟨i32be fl ++ data, 0⟩ = .error .Incomplete) ∧
    (∀ (src : Cursor) (e : ClientError), Frame.check src ≠ .error (.Other e)) := by
  exact ⟨fun h0 hlen => check_incomplete fl hfl h0 data hlen,
    fun h0 hlen => check_ok fl hfl h0 data hlen,
    fun hneg hlen => check_negative fl hfl hneg data hlen,
    check_no_decode_error⟩

/-- Witness for C3 (amended) at total length 3 and a two-byte remainder. -/
theorem check_length_semantics_witness :
    IsI32 3 ∧
    ((0 ≤ (3 : Int) → ([0, 0] : List Nat).length < (3 : Int).toNat →
      Frame.check ⟨i32be 3 ++ [0, 0], 0⟩ = .error .Incomplete) ∧
    (0 ≤ (3 : Int) → (3 : Int).toNat ≤ ([0, 0] : List Nat).length →
      Frame.check ⟨i32be 3 ++ [0, 0], 0⟩ = .ok ⟨i32be 3 ++ [0, 0], 4 + (3 : Int).toNat⟩) ∧
    ((3 : Int) < 0 → ([0, 0] : List Nat).length < 2 ^ 63 →
      Frame.check ⟨i32be 3 ++ [0, 0], 0⟩ = .error .Incomplete) ∧
    (∀ (src : Cursor) (e : ClientError), Frame.check src ≠ .error (.Other e))) :=
  ⟨by decide, check_length_semantics 3 (by decide) [0, 0]⟩
/-- C4: when a read from the socket yields zero bytes inside read_frame
(the stream is exhausted, or an empty chunk is delivered) while no complete
frame is buffered: an empty receive buffer yields the clean no-more-frames
result, a nonempty buffer yields a connection-reset error. -/
theorem read_frame_zero_byte_read (buffer : List Nat) (chunks : List (List Nat))
    (hnoframe : Connection.parseFrame buffer = .val (.ok (none, buffer))) :
    (Connection.readFrame ⟨buffer, []⟩
      = if buffer = [] then .val (.ok (none, ⟨buffer, []⟩))
        else .val (.error .ConnectionReset)) ∧
    (Connection.readFrame ⟨buffer, [] :: chunks⟩
      = if buffer = [] then .val (.ok (none, ⟨buffer, chunks⟩))
        else .val (.error .ConnectionReset)) := by
  constructor
  · show Connection.readFrameAux [] buffer = _
    by_cases hb : buffer = []
    · subst hb
      simp [Connection.readFrameAux, hnoframe]
    · simp [Connection.readFrameAux, hnoframe, hb]
  · show Connection.readFrameAux ([] :: chunks) buffer = _
    by_cases hb : buffer = []
    · subst hb
      simp [Connection.readFrameAux, hnoframe]
    · simp [Connection.readFrameAux, hnoframe, hb]

/-- Witness for C4 with a one-byte (incomplete) buffer and an exhausted
stream. -/
theorem read_frame_zero_byte_read_witness :
    Connection.parseFrame [1] = .val (.ok (none, [1])) ∧
    ((Connection.readFrame ⟨[1], []⟩
      = if ([1] : List Nat) = [] then .val (.ok (none, ⟨[1], []⟩))
        else .val (.error .ConnectionReset)) ∧
    (Connection.readFrame ⟨[1], [] :: []⟩
      = if ([1] : List Nat) = [] then .val (.ok (none, ⟨[1], []⟩))
        else .val (.error .ConnectionReset))) :=
  ⟨by decide, read_frame_zero_byte_read [1] [] (by decide)⟩

/-- C5: splitting the encoding of a well-formed frame (plus any extra
bytes) into nonempty chunks delivered across separate reads, read_frame
starting from an empty buffer returns that same parsed Frame, and every
byte beyond the parsed frame is retained (left in the buffer or still
undelivered), never discarded. -/
theorem read_frame_chunked_delivery (f : Frame) (chunks : List (List Nat)) (extra : List Nat)
    (hwf : f.WF)
    (hfit : 4 + (serFrameHeader f).length + f.body.length ≤ 2 ^ 31 - 1)
    (hne : ∀ c ∈ chunks, c ≠ [])
    (hjoin : joinChunks chunks = Frame.encodeBytes f ++ extra) :
    ∃ leftover rest,
      Connection.readFrame ⟨[], chunks⟩ = .val (.ok (some f, ⟨leftover, rest⟩))
      ∧ leftover ++ joinChunks rest = extra := by
  have h := readFrame_chunks_aux f hwf hfit chunks [] extra hne (by simpa using hjoin)
    (by simp only [List.length_nil, length_encodeBytes]; omega) (by simp)
  exact h

set_option maxRecDepth 10000 in
/-- Witness for C5: the sample frame encoding split into a three-byte chunk
and the remainder carrying one extra trailing byte. -/
theorem read_frame_chunked_delivery_witness :
    (sampleFrame.WF
      ∧ 4 + (serFrameHeader sampleFrame).length + sampleFrame.body.length ≤ 2 ^ 31 - 1
      ∧ (∀ c ∈ [(Frame.encodeBytes sampleFrame).take 3,
          (Frame.encodeBytes sampleFrame).drop 3 ++ [9]], c ≠ [])
      ∧ joinChunks [(Frame.encodeBytes sampleFrame).take 3,
          (Frame.encodeBytes sampleFrame).drop 3 ++ [9]]
        = Frame.encodeBytes sampleFrame ++ [9]) ∧
    ∃ leftover rest,
      Connection.readFrame ⟨[], [(Frame.encodeBytes sampleFrame).take 3,
        (Frame.encodeBytes sampleFrame).drop 3 ++ [9]]⟩
        = .val (.ok (some sampleFrame, ⟨leftover, rest⟩))
      ∧ leftover ++ joinChunks rest = [9] :=
  ⟨⟨by decide, by decide, by decide, by decide⟩,
    read_frame_chunked_delivery sampleFrame _ [9] (by decide) (by decide) (by decide) (by decide)⟩

/-- C6: opaque identifiers assigned by successive constructor calls start
at 0 and are strictly increasing (hence pairwise distinct) while the i32
counter has not wrapped. -/
theorem opaque_ids_strictly_increasing (m n : Nat) (h : m < n) (hn : n < 2 ^ 31) :
    opaqueValueAt 0 = 0 ∧ opaqueValueAt m < opaqueValueAt n
      ∧ opaqueValueAt m ≠ opaqueValueAt n := by
  have hval : ∀ k : Nat, k < 2 ^ 31 → opaqueValueAt k = k := by
    intro k
    induction k with
    | zero => intro _; rfl
    | succ k ih =>
      intro hk
      show wrap32 (opaqueStateAfter k + 1) = ((k + 1 : Nat) : Int)
      rw [show opaqueStateAfter k = ((k : Nat) : Int) from ih (by omega)]
      rw [wrap32_eq_self (by constructor <;> simp only [i32Min, i32Max] <;> omega)]
      push_cast
      ring
  refine ⟨hval 0 (by omega), ?_, ?_⟩
  · rw [hval m (by omega), hval n hn]
    exact_mod_cast h
  · rw [hval m (by omega), hval n hn]
    have : m ≠ n := by omega
    exact_mod_cast this

/-- Witness for C6 at the first two constructor calls. -/
theorem opaque_ids_strictly_increasing_witness :
    opaqueValueAt 0 = 0 ∧ opaqueValueAt 0 < opaqueValueAt 1
      ∧ opaqueValueAt 0 ≠ opaqueValueAt 1 :=
  opaque_ids_strictly_increasing 0 1 (by decide) (by decide)
/-- C7: encode emits big-endian [total_length][header_length][header
JSON][body] with total_length = 4 + header_length + body_length, the outer
total_length field itself not counted; the body bytes are excluded from the
JSON header (the header does not depend on the body) and appended verbatim
after it; with an empty body total_length = 4 + header_length. -/
theorem frame_encode_layout (f : Frame)
    (hfit : 4 + (serFrameHeader f).length + f.body.length ≤ 2 ^ 31 - 1) :
    (Frame.encodeBytes f).length = 4 + (4 + (serFrameHeader f).length + f.body.length) ∧
    beToI32 (Frame.encodeBytes f)
      = 4 + ((serFrameHeader f).length : Int) + (f.body.length : Int) ∧
    beToI32 ((Frame.encodeBytes f).drop 4) = ((serFrameHeader f).length : Int) ∧
    ((Frame.encodeBytes f).drop 8).take (serFrameHeader f).length = serFrameHeader f ∧
    (Frame.encodeBytes f).drop (8 + (serFrameHeader f).length) = f.body ∧
    (∀ b : List Nat, serFrameHeader { f with body := b } = serFrameHeader f) ∧
    (f.body = [] →
      beToI32 (Frame.encodeBytes f) = 4 + ((serFrameHeader f).length : Int)) := by
  have hTotal : IsI32 (4 + ((serFrameHeader f).length : Int) + (f.body.length : Int)) := by
    constructor <;> simp only [i32Min, i32Max] <;> omega
  have hHl : IsI32 ((serFrameHeader f).length : Int) := by
    constructor <;> simp only [i32Min, i32Max] <;> omega
  have hEnc := encodeBytes_eq f
  have hbe : beToI32 (Frame.encodeBytes f)
      = 4 + ((serFrameHeader f).length : Int) + (f.body.length : Int) := by
    conv_lhs => rw [hEnc]
    exact beToI32_i32be_append _ hTotal _
  refine ⟨?_, hbe, ?_, ?_, ?_, ?_, ?_⟩
  · rw [length_encodeBytes]
    omega
  · conv_lhs => rw [hEnc]
    rw [show (4 : Nat)
        = (i32be (4 + ((serFrameHeader f).length : Int) + (f.body.length : Int))).length
      from (length_i32be _).symm]
    rw [List.drop_left]
    exact beToI32_i32be_append _ hHl _
  · have hd8 : (Frame.encodeBytes f).drop 8 = serFrameHeader f ++ f.body := by
      rw [hEnc, ← List.append_assoc]
      rw [show (8 : Nat)
          = (i32be (4 + ((serFrameHeader f).length : Int) + (f.body.length : Int))
            ++ i32be ((serFrameHeader f).length : Int)).length
        from by simp [length_i32be]]
      exact List.drop_left _ _
    rw [hd8]
    exact List.take_left _ _
  · rw [hEnc, ← List.append_assoc, ← List.append_assoc]
    rw [show (8 + (serFrameHeader f).length : Nat)
        = ((i32be (4 + ((serFrameHeader f).length : Int) + (f.body.length : Int))
          ++ i32be ((serFrameHeader f).length : Int)) ++ serFrameHeader f).length
      from by simp [length_i32be]; omega]
    exact List.drop_left _ _
  · intro b
    rfl
  · intro hb
    rw [hbe]
    simp [hb]

set_option maxRecDepth 10000 in
/-- Witness for C7 at the worked example of the specification: code 105,
CPP language, one extension field topic=T1, empty body. -/
theorem frame_encode_layout_witness :
    (4 + (serFrameHeader specFrame).length + specFrame.body.length ≤ 2 ^ 31 - 1) ∧
    ((Frame.encodeBytes specFrame).length
        = 4 + (4 + (serFrameHeader specFrame).length + specFrame.body.length) ∧
    beToI32 (Frame.encodeBytes specFrame)
      = 4 + ((serFrameHeader specFrame).length : Int) + (specFrame.body.length : Int) ∧
    beToI32 ((Frame.encodeBytes specFrame).drop 4)
      = ((serFrameHeader specFrame).length : Int) ∧
    ((Frame.encodeBytes specFrame).drop 8).take (serFrameHeader specFrame).length
      = serFrameHeader specFrame ∧
    (Frame.encodeBytes specFrame).drop (8 + (serFrameHeader specFrame).length)
      = specFrame.body ∧
    (∀ b : List Nat, serFrameHeader { specFrame with body := b } = serFrameHeader specFrame) ∧
    (specFrame.body = [] →
      beToI32 (Frame.encodeBytes specFrame)
        = 4 + ((serFrameHeader specFrame).length : Int))) :=
  ⟨by decide, frame_encode_layout specFrame (by decide)⟩

/-- C8: frame_type is determined exactly by bit 0 of the flag: a freshly
constructed Frame is a request; after mark_response_type it is a response;
marking again leaves the flag unchanged; and the response classification
holds exactly when the flag is odd (bit 0 set). -/
theorem frame_type_flag_semantics (f : Frame) (opq : Int) :
    (Frame.new opq).frameType = .Request ∧
    f.markResponseType.frameType = .Response ∧
    f.markResponseType.markResponseType = f.markResponseType ∧
    (f.frameType = .Response ↔ f.flag % 2 = 1) := by
  obtain ⟨cd, lang, ver, opqf, fl, rem, ext, bd⟩ := f
  refine ⟨rfl, ?_, ?_, ?_⟩
  · unfold Frame.markResponseType Frame.frameType
    by_cases h : fl % 2 = 0
    · rw [if_pos h]
      rw [if_pos (by omega : (fl + 1) % 2 = 1)]
    · rw [if_neg h]
      rw [if_pos (by omega : fl % 2 = 1)]
  · unfold Frame.markResponseType
    by_cases h : fl % 2 = 0
    · rw [if_pos h]
      rw [if_neg (by omega : ¬(fl + 1) % 2 = 0)]
    · rw [if_neg h, if_neg h]
  · unfold Frame.frameType
    by_cases h : fl % 2 = 1
    · rw [if_pos h]
      simp [h]
    · rw [if_neg h]
      simp [h]

/-- C9: route lookup returns the shared cached TopicRouteData when an entry
for the topic is present, a clean not-found result when absent, and a
poisoned lock is surfaced as the Unknown error, which is distinct from the
not-found result. -/
theorem route_cache_lookup (rm : RouteManager) (topic : Str) (v : TopicRouteData)
    (hhit : lookupAssoc rm.topic_routes topic = some v) :
    RouteManager.route false rm topic = .ok (some v) ∧
    (∀ (rm2 : RouteManager) (t2 : Str), lookupAssoc rm2.topic_routes t2 = none →
      RouteManager.route false rm2 t2 = .ok none) ∧
    (∀ (rm3 : RouteManager) (t3 : Str), RouteManager.route true rm3 t3 = .error .Unknown) ∧
    ((.error .Unknown : Except ClientError (Option TopicRouteData)) ≠ .ok none) := by
  refine ⟨?_, ?_, ?_, ?_⟩
  · simp [RouteManager.route, hhit]
  · intro rm2 t2 hmiss
    simp [RouteManager.route, hmiss]
  · intro rm3 t3
    simp [RouteManager.route]
  · simp

/-- Witness for C9 on a manager caching the topic T1. -/
theorem route_cache_lookup_witness :
    lookupAssoc sampleManager.topic_routes [84, 49] = some sampleRoute ∧
    (RouteManager.route false sampleManager [84, 49] = .ok (some sampleRoute) ∧
    (∀ (rm2 : RouteManager) (t2 : Str), lookupAssoc rm2.topic_routes t2 = none →
      RouteManager.route false rm2 t2 = .ok none) ∧
    (∀ (rm3 : RouteManager) (t3 : Str), RouteManager.route true rm3 t3 = .error .Unknown) ∧
    ((.error .Unknown : Except ClientError (Option TopicRouteData)) ≠ .ok none)) :=
  ⟨by decide, route_cache_lookup sampleManager [84, 49] sampleRoute (by decide)⟩

/-- C10: Frame::encode always succeeds with Some byte buffer and never
returns the no-bytes case, so the no-op branch of write_frame is
unreachable and a successful write_frame has written (and flushed) the full
encoding of the frame. -/
theorem encode_always_some_write_full (f : Frame) :
    Frame.encode f = .ok (some (Frame.encodeBytes f)) ∧
    (∀ g : Frame, Frame.encode g ≠ .ok none) ∧
    Connection.writeFrame f = .ok (Frame.encodeBytes f) := by
  refine ⟨rfl, ?_, rfl⟩
  intro g
  simp [Frame.encode]
end RocketMQ
